import Mathlib

/-!
Verification of the medivarify/qr_managements provenance pipeline.

The development shallowly embeds the TypeScript sources:
 * `src/utils/qrParser.ts` (class QRCodeParser): content classification,
   structured extraction, dimensionality and validation of scanned payloads;
 * `src/components/AgentPortal.tsx`: the district registry, the geolocation
   resolver `detectDistrict`, the diversion detector and transaction state
   step inside `handleScanSuccess`, the tamper-proof log builder
   `createTamperProofLog` and the content hash `generateHash`;
 * `src/services/arduinoCloud.ts` (class ArduinoCloudService): `batchSync`.

JavaScript values flowing through the parser are modelled by `JsonVal`
(JSON values with rational numbers); `JSON.parse` is modelled by an
executable fuel-based recursive-descent parser `jsonParse`.  Platform
builtins whose exact behaviour is irrelevant to the verified properties
(`new URL`, `decodeURIComponent`, float rendering, `Date` arithmetic) are
abstracted into a `JsEnv` record of oracle functions.
-/

set_option maxHeartbeats 1600000

namespace QRM

/-- JavaScript/JSON values as produced by `JSON.parse`. -/
inductive JsonVal : Type where
  | jnull : JsonVal
  | jbool : Bool → JsonVal
  | jnum : ℚ → JsonVal
  | jstr : String → JsonVal
  | jarr : List JsonVal → JsonVal
  | jobj : List (String × JsonVal) → JsonVal
deriving Inhabited

/-- Lookup of an object field; on duplicate keys the last occurrence wins,
matching `JSON.parse` semantics. -/
def lookupField : List (String × JsonVal) → String → Option JsonVal
  | [], _ => none
  | (k, v) :: rest, key =>
    match lookupField rest key with
    | some w => some w
    | none => if k = key then some v else none

/-- JavaScript property access `v.key`: `none` models `undefined`. -/
def getField : JsonVal → String → Option JsonVal
  | .jobj fs, k => lookupField fs k
  | _, _ => none

/-- JavaScript truthiness of a parsed value. -/
def truthy : JsonVal → Bool
  | .jnull => false
  | .jbool b => b
  | .jnum q => decide (q ≠ 0)
  | .jstr s => decide (s ≠ "")
  | .jarr _ => true
  | .jobj _ => true

/-- Truthiness of `v.key` (with `undefined` falsy). -/
def truthyField (v : JsonVal) (k : String) : Bool :=
  match getField v k with
  | some w => truthy w
  | none => false

/-- `typeof v === 'object' && v !== null` (arrays included, null excluded). -/
def isObjLike : JsonVal → Bool
  | .jarr _ => true
  | .jobj _ => true
  | _ => false

/-- `Array.isArray`. -/
def isArrVal : JsonVal → Bool
  | .jarr _ => true
  | _ => false

/-! ### An executable model of `JSON.parse` -/

/-- JSON insignificant whitespace. -/
def jsonWs (c : Char) : Bool :=
  c = ' ' || c = '\t' || c = '\n' || c = '\r'

def skipWs : List Char → List Char
  | [] => []
  | c :: cs => if jsonWs c then skipWs cs else c :: cs

def hexDigitVal (c : Char) : Option Nat :=
  if '0' ≤ c ∧ c ≤ '9' then some (c.toNat - 48)
  else if 'a' ≤ c ∧ c ≤ 'f' then some (c.toNat - 87)
  else if 'A' ≤ c ∧ c ≤ 'F' then some (c.toNat - 55)
  else none

/-- Parse the remainder of a JSON string literal (the opening quote is
already consumed), handling the standard escapes. -/
def jparseString : Nat → List Char → Option (String × List Char)
  | 0, _ => none
  | _, [] => none
  | Nat.succ fuel, c :: cs =>
    if c = '"' then some ("", cs)
    else if c = '\\' then
      match cs with
      | [] => none
      | e :: cs2 =>
        if e = '"' then (jparseString fuel cs2).map (fun p => (String.mk ('"' :: p.1.data), p.2))
        else if e = '\\' then (jparseString fuel cs2).map (fun p => (String.mk ('\\' :: p.1.data), p.2))
        else if e = '/' then (jparseString fuel cs2).map (fun p => (String.mk ('/' :: p.1.data), p.2))
        else if e = 'b' then (jparseString fuel cs2).map (fun p => (String.mk (Char.ofNat 8 :: p.1.data), p.2))
        else if e = 'f' then (jparseString fuel cs2).map (fun p => (String.mk (Char.ofNat 12 :: p.1.data), p.2))
        else if e = 'n' then (jparseString fuel cs2).map (fun p => (String.mk ('\n' :: p.1.data), p.2))
        else if e = 'r' then (jparseString fuel cs2).map (fun p => (String.mk ('\r' :: p.1.data), p.2))
        else if e = 't' then (jparseString fuel cs2).map (fun p => (String.mk ('\t' :: p.1.data), p.2))
        else if e = 'u' then
          match cs2 with
          | h1 :: h2 :: h3 :: h4 :: cs3 =>
            match hexDigitVal h1, hexDigitVal h2, hexDigitVal h3, hexDigitVal h4 with
            | some a, some b, some c3, some d =>
              (jparseString fuel cs3).map
                (fun p => (String.mk (Char.ofNat (((a * 16 + b) * 16 + c3) * 16 + d) :: p.1.data), p.2))
            | _, _, _, _ => none
          | _ => none
        else none
    else if c.toNat < 32 then none
    else (jparseString fuel cs).map (fun p => (String.mk (c :: p.1.data), p.2))

def natOfDigits (ds : List Char) : Nat :=
  ds.foldl (fun n c => n * 10 + (c.toNat - 48)) 0

/-- Exponent suffix of a JSON number applied to mantissa `m`. -/
def jparseExpo (m : ℚ) (cs : List Char) : Option (ℚ × List Char) :=
  match cs with
  | e :: rest =>
    if e = 'e' ∨ e = 'E' then
      let signAndRest : (Bool × List Char) :=
        match rest with
        | '+' :: r => (true, r)
        | '-' :: r => (false, r)
        | _ => (true, rest)
      let es := signAndRest.2.takeWhile Char.isDigit
      let rest3 := signAndRest.2.dropWhile Char.isDigit
      if es = [] then none
      else if signAndRest.1 then some (m * (10 : ℚ) ^ natOfDigits es, rest3)
      else some (m / (10 : ℚ) ^ natOfDigits es, rest3)
    else some (m, cs)
  | [] => some (m, cs)

/-- Parse a JSON number (strict grammar: optional minus, no leading zeros,
optional fraction and exponent). -/
def jparseNumber (cs : List Char) : Option (ℚ × List Char) :=
  let negAndRest : (Bool × List Char) :=
    match cs with
    | '-' :: r => (true, r)
    | _ => (false, cs)
  let cs1 := negAndRest.2
  let ds := cs1.takeWhile Char.isDigit
  let cs2 := cs1.dropWhile Char.isDigit
  if ds = [] then none
  else if 1 < ds.length ∧ ds.headI = '0' then none
  else
    let intPart : ℚ := (natOfDigits ds : ℚ)
    let withFrac : Option (ℚ × List Char) :=
      match cs2 with
      | '.' :: cs3 =>
        let fs := cs3.takeWhile Char.isDigit
        let cs4 := cs3.dropWhile Char.isDigit
        if fs = [] then none
        else some (intPart + (natOfDigits fs : ℚ) / (10 : ℚ) ^ fs.length, cs4)
      | _ => some (intPart, cs2)
    match withFrac with
    | none => none
    | some (m, rest) =>
      (jparseExpo m rest).map (fun p => (if negAndRest.1 then -p.1 else p.1, p.2))

mutual

/-- Fuel-based recursive-descent JSON value parser. -/
def jparse : Nat → List Char → Option (JsonVal × List Char)
  | 0, _ => none
  | Nat.succ fuel, cs =>
    match skipWs cs with
    | [] => none
    | c :: rest =>
      if c = 'n' then
        match rest with
        | 'u' :: 'l' :: 'l' :: r => some (.jnull, r)
        | _ => none
      else if c = 't' then
        match rest with
        | 'r' :: 'u' :: 'e' :: r => some (.jbool true, r)
        | _ => none
      else if c = 'f' then
        match rest with
        | 'a' :: 'l' :: 's' :: 'e' :: r => some (.jbool false, r)
        | _ => none
      else if c = '"' then
        (jparseString fuel rest).map (fun p => (.jstr p.1, p.2))
      else if c = '[' then
        match skipWs rest with
        | ']' :: r => some (.jarr [], r)
        | r2 => (jparseArrElems fuel r2).map (fun p => (.jarr p.1, p.2))
      else if c = '\x7b' then
        match skipWs rest with
        | '\x7d' :: r => some (.jobj [], r)
        | r2 => (jparseObjFields fuel r2).map (fun p => (.jobj p.1, p.2))
      else if c = '-' ∨ c.isDigit then
        (jparseNumber (c :: rest)).map (fun p => (.jnum p.1, p.2))
      else none

/-- Comma-separated array elements followed by a closing bracket. -/
def jparseArrElems : Nat → List Char → Option (List JsonVal × List Char)
  | 0, _ => none
  | Nat.succ fuel, cs =>
    match jparse fuel cs with
    | none => none
    | some (v, rest) =>
      match skipWs rest with
      | ',' :: r => (jparseArrElems fuel r).map (fun p => (v :: p.1, p.2))
      | ']' :: r => some ([v], r)
      | _ => none

/-- Comma-separated object members followed by a closing brace. -/
def jparseObjFields : Nat → List Char → Option (List (String × JsonVal) × List Char)
  | 0, _ => none
  | Nat.succ fuel, cs =>
    match skipWs cs with
    | '"' :: rest =>
      match jparseString fuel rest with
      | none => none
      | some (k, r1) =>
        match skipWs r1 with
        | ':' :: r2 =>
          match jparse fuel r2 with
          | none => none
          | some (v, r3) =>
            match skipWs r3 with
            | ',' :: r4 => (jparseObjFields fuel r4).map (fun p => ((k, v) :: p.1, p.2))
            | '\x7d' :: r4 => some ([(k, v)], r4)
            | _ => none
        | _ => none
    | _ => none

end

/-- Model of `JSON.parse`: `none` models a thrown `SyntaxError`. -/
def jsonParse (s : String) : Option JsonVal :=
  match jparse (4 * s.data.length + 16) s.data with
  | some (v, rest) => if skipWs rest = [] then some v else none
  | none => none

/-! ### Data model enums (`src/types/index.ts`) -/

/-- `enum QRDataType`. -/
inductive QRDataType : Type where
  | text | url | email | phone | sms | wifi | vcard | event
  | geo | json | xml | multidimensional | custom | medicine_tracking
deriving DecidableEq, Repr, Inhabited

/-- `enum ValidationStatus`. -/
inductive ValidationStatus : Type where
  | valid | invalid | corrupted | incomplete | pending
deriving DecidableEq, Repr, Inhabited

/-- `enum ArduinoSyncStatus`. -/
inductive ArduinoSyncStatus : Type where
  | not_synced | pending | synced | failed | partialSync
deriving DecidableEq, Repr, Inhabited

/-! ### Embeddings of the JS regular-expression checks of `detectDataType` -/

/-- The JavaScript regex character class for whitespace. -/
def jsWhite (c : Char) : Bool :=
  c = ' ' || c = '\t' || c = '\n' || c = '\r' || c.toNat = 11 || c.toNat = 12 ||
  c.toNat = 0xa0 || c.toNat = 0x1680 || (0x2000 ≤ c.toNat && c.toNat ≤ 0x200a) ||
  c.toNat = 0x2028 || c.toNat = 0x2029 || c.toNat = 0x202f || c.toNat = 0x205f ||
  c.toNat = 0x3000 || c.toNat = 0xfeff

/-- Split a character list at every occurrence of a separator
(JS `String.prototype.split` with a one-character separator). -/
def splitOnChar (sep : Char) : List Char → List (List Char)
  | [] => [[]]
  | c :: rest =>
    let r := splitOnChar sep rest
    if c = sep then [] :: r
    else
      match r with
      | h :: t => (c :: h) :: t
      | [] => [[c]]

/-- Case-insensitive prefix test (the `/i` flag on an anchored literal). -/
def ciStartsWith (s p : String) : Bool :=
  p.data.isPrefixOf (s.data.map Char.toLower)

/-- `/^[^\s@]+@[^\s@]+\.[^\s@]+$/` — the bare e-mail address pattern. -/
def bareEmail (s : String) : Bool :=
  match splitOnChar '@' s.data with
  | [localPart, domain] =>
    !localPart.isEmpty ∧ localPart.all (fun c => !jsWhite c) ∧
    domain.all (fun c => !jsWhite c) ∧
    ((domain.drop 1).dropLast.contains '.')
  | _ => false

/-- The character class `[\d\s\-\(\)]` of the telephone pattern. -/
def phoneClass (c : Char) : Bool :=
  c.isDigit || jsWhite c || c = '-' || c = '(' || c = ')'

/-- `/^\+?[\d\s\-\(\)]+$/` — digit/punctuation-only telephone strings. -/
def phoneLike (s : String) : Bool :=
  let cs := match s.data with
    | '+' :: r => r
    | r => r
  !cs.isEmpty && cs.all phoneClass

/-- JS `\w` word characters. -/
def wordChar (c : Char) : Bool :=
  c.isAlphanum || c = '_'

/-- JS regex line terminators (never matched by `.`). -/
def lineTerm (c : Char) : Bool :=
  c = '\n' || c = '\r' || c.toNat = 0x2028 || c.toNat = 0x2029

/-- Is there a closing angle bracket before any line terminator? -/
def gtBeforeNl : List Char → Bool
  | [] => false
  | c :: r => if c = '>' then true else if lineTerm c then false else gtBeforeNl r

/-- Does the regex `/<\?xml|<\w+.*?>/` match at this position? -/
def xmlMatchAt (cs : List Char) : Bool :=
  match cs with
  | '<' :: '?' :: 'x' :: 'm' :: 'l' :: _ => true
  | '<' :: c :: r => wordChar c && gtBeforeNl r
  | _ => false

/-- Unanchored search for the markup pattern. -/
def xmlScan : List Char → Bool
  | [] => false
  | c :: r => xmlMatchAt (c :: r) || xmlScan r

/-! ### `QRCodeParser.detectDataType` -/

/-- `parsed.type === 'medicine_tracking' && parsed.data`. -/
def medTrackShape (v : JsonVal) : Bool :=
  (match getField v "type" with
   | some (.jstr t) => t = "medicine_tracking"
   | _ => false) && truthyField v "data"

/-- `parsed.layers && Array.isArray(parsed.layers)`. -/
def layersIsArray (v : JsonVal) : Bool :=
  match getField v "layers" with
  | some w => truthy w && isArrVal w
  | none => false

/-- The ordered pattern checks after the JSON attempt in `detectDataType`. -/
def detectByPattern (s : String) : QRDataType :=
  if ciStartsWith s "http://" || ciStartsWith s "https://" then .url
  else if ciStartsWith s "mailto:" || bareEmail s then .email
  else if ciStartsWith s "tel:" || phoneLike s then .phone
  else if ciStartsWith s "sms:" then .sms
  else if ciStartsWith s "wifi:" then .wifi
  else if ciStartsWith s "begin:vcard" then .vcard
  else if ciStartsWith s "begin:vevent" then .event
  else if ciStartsWith s "geo:" then .geo
  else if xmlScan s.data then .xml
  else .text

/-- `QRCodeParser.detectDataType` (`src/utils/qrParser.ts`). -/
def detectDataType (s : String) : QRDataType :=
  match jsonParse s with
  | some v =>
    if isObjLike v then
      if medTrackShape v then .medicine_tracking
      else if layersIsArray v then .multidimensional
      else .json
    else detectByPattern s
  | none => detectByPattern s

/-! ### Platform oracle record -/

/-- The parts of a WHATWG `URL` consumed by `parseURL`. -/
structure UrlParts : Type where
  protocol : String
  hostname : String
  pathname : String
  search : String
  params : List (String × String)

/-- Oracles for platform builtins whose exact semantics the verified
properties do not depend on: `new URL` (throwing modelled by `none`),
`decodeURIComponent` (`none` = thrown `URIError`), `parseFloat`,
`Date` comparison/arithmetic and the current ISO timestamp. -/
structure JsEnv : Type where
  urlParse : String → Option UrlParts
  uriDecode : String → Option String
  floatOfString : String → ℚ
  dateBefore : Option JsonVal → Bool
  daysUntil : Option JsonVal → ℚ
  nowIso : String

/-- A trivial concrete instantiation of the platform oracles, used to
state closed counterexamples on code paths that never consult them. -/
def defaultEnv : JsEnv where
  urlParse _ := none
  uriDecode s := some s
  floatOfString _ := 0
  dateBefore _ := false
  daysUntil _ := 0
  nowIso := ""

/-! ### The per-type extractors -/

/-- JS object property assignment `o[k] = v`: replace in place or append. -/
def setField : List (String × JsonVal) → String → JsonVal → List (String × JsonVal)
  | [], k, v => [(k, v)]
  | (k0, v0) :: rest, k, v =>
    if k0 = k then (k0, v) :: rest else (k0, v0) :: setField rest k v

/-- Assignment on a string-valued mapping (query parameters). -/
def setStr : List (String × String) → String → String → List (String × String)
  | [], k, v => [(k, v)]
  | (k0, v0) :: rest, k, v =>
    if k0 = k then (k0, v) :: rest else (k0, v0) :: setStr rest k v

/-- Last-wins lookup on a string-valued mapping. -/
def lookupStr : List (String × String) → String → Option String
  | [], _ => none
  | (k, v) :: rest, key =>
    match lookupStr rest key with
    | some w => some w
    | none => if k = key then some v else none

/-- `QRCodeParser.parseURL`. -/
def parseURL (env : JsEnv) (s : String) : JsonVal :=
  match env.urlParse s with
  | some u =>
    .jobj [("url", .jstr s), ("protocol", .jstr u.protocol),
           ("hostname", .jstr u.hostname), ("pathname", .jstr u.pathname),
           ("search", .jstr u.search),
           ("params", .jobj (u.params.map (fun p => (p.1, JsonVal.jstr p.2))))]
  | none => .jobj [("url", .jstr s), ("error", .jstr "Invalid URL format")]

/-- `paramObj.subject || ''` and friends. -/
def paramOr (m : List (String × String)) (k : String) : String :=
  match lookupStr m k with
  | some v => v
  | none => ""

/-- `QRCodeParser.parseEmail`; `none` models the uncaught `URIError`
thrown by `decodeURIComponent` on a malformed escape. -/
def parseEmail (env : JsEnv) (s : String) : Option JsonVal :=
  if "mailto:".data.isPrefixOf s.data then
    let mailto := s.data.drop 7
    let segs := splitOnChar '?' mailto
    let email := String.mk segs.headI
    let paramObj : Option (List (String × String)) :=
      match segs with
      | _ :: params :: _ =>
        (splitOnChar '&' params).foldl
          (fun acc param =>
            acc.bind (fun m =>
              let kv := splitOnChar '=' param
              let key := String.mk kv.headI
              let rawVal := match kv with
                | _ :: v :: _ => String.mk v
                | _ => ""
              (env.uriDecode rawVal).map (fun dv => setStr m key dv)))
          (some [])
      | _ => some []
    paramObj.map (fun m =>
      .jobj [("email", .jstr email), ("subject", .jstr (paramOr m "subject")),
             ("body", .jstr (paramOr m "body")), ("cc", .jstr (paramOr m "cc")),
             ("bcc", .jstr (paramOr m "bcc"))])
  else some (.jobj [("email", .jstr s)])

/-- `QRCodeParser.parsePhone`. -/
def parsePhone (s : String) : JsonVal :=
  let stripped := if "tel:".data.isPrefixOf s.data then s.data.drop 4 else s.data
  let phone := stripped.filter (fun c => c.isDigit || c = '+')
  .jobj [("phone", .jstr (String.mk phone)), ("formatted", .jstr s),
         ("country_code",
          match phone with
          | '+' :: r => .jstr (String.mk (r.take 2))
          | _ => .jnull)]

/-- Split at the first case-insensitive occurrence of `needle`, requiring
no line terminator in the matched span (the `.`/lazy-quantifier rule). -/
def splitOnceCI (hay needle : List Char) : Option (List Char × List Char) :=
  match hay with
  | [] => if needle = [] then some ([], []) else none
  | c :: rest =>
    if (needle.isPrefixOf ((c :: rest).map Char.toLower)) then
      some ([], (c :: rest).drop needle.length)
    else
      (splitOnceCI rest needle).map (fun p => (c :: p.1, p.2))

/-- `QRCodeParser.parseWiFi`: lazy captures between the WIFI markers. -/
def parseWiFi (s : String) : JsonVal :=
  let bad : JsonVal := .jobj [("raw", .jstr s), ("error", .jstr "Invalid WiFi format")]
  match splitOnceCI s.data "wifi:t:".data with
  | none => bad
  | some (_, r1) =>
    match splitOnceCI r1 ";s:".data with
    | none => bad
    | some (g1, r2) =>
      match splitOnceCI r2 ";p:".data with
      | none => bad
      | some (g2, r3) =>
        match splitOnceCI r3 ";h:".data with
        | none => bad
        | some (g3, r4) =>
          match splitOnceCI r4 ";".data with
          | none => bad
          | some (g4, _) =>
            if (g1 ++ g2 ++ g3 ++ g4).any lineTerm then bad
            else
              .jobj [("security", .jstr (String.mk g1)), ("ssid", .jstr (String.mk g2)),
                     ("password", .jstr (String.mk g3)),
                     ("hidden", .jbool (String.mk g4 = "true"))]

/-- One line of the `parseVCard` loop: `key:value` at the first colon
(`colonIndex > 0`), lower-casing the key. -/
def vcardStep (acc : List (String × JsonVal)) (line : List Char) :
    List (String × JsonVal) :=
  if 0 < (line.takeWhile (fun c => c ≠ ':')).length ∧
     (line.takeWhile (fun c => c ≠ ':')).length < line.length then
    setField acc (String.mk ((line.takeWhile (fun c => c ≠ ':')).map Char.toLower))
      (.jstr (String.mk (line.drop ((line.takeWhile (fun c => c ≠ ':')).length + 1))))
  else acc

/-- `QRCodeParser.parseVCard`: line-oriented `key:value` mapping. -/
def parseVCard (s : String) : JsonVal :=
  .jobj ((splitOnChar '\n' s.data).foldl vcardStep [])

/-- The character class `[-\d.]` of the geo pattern. -/
def geoClass (c : Char) : Bool :=
  c.isDigit || c = '-' || c = '.'

/-- The failure value of `parseGeo`. -/
def geoBad (s : String) : JsonVal :=
  .jobj [("raw", .jstr s), ("error", .jstr "Invalid geo format")]

/-- The optional third capture `(?:,([-\d.]+))?` and the rest. -/
def geoAlt (r3 : List Char) : Option (List Char) × List Char :=
  match r3 with
  | ',' :: r4 =>
    if r4.takeWhile geoClass = [] then (none, r3)
    else (some (r4.takeWhile geoClass), r4.dropWhile geoClass)
  | _ => (none, r3)

/-- The optional query capture `(?:\?(.*))?` (`.` excludes line ends). -/
def geoQuery (rest : List Char) : Option (List Char) :=
  match rest with
  | '?' :: r5 => some (r5.takeWhile (fun c => !lineTerm c))
  | _ => none

/-- The success value of `parseGeo` from the four captures. -/
def geoObj (env : JsEnv) (g1 g2 : List Char) (r3 : List Char) : JsonVal :=
  .jobj [("latitude", .jnum (env.floatOfString (String.mk g1))),
         ("longitude", .jnum (env.floatOfString (String.mk g2))),
         ("altitude",
          match (geoAlt r3).1 with
          | some g3 => .jnum (env.floatOfString (String.mk g3))
          | none => .jnull),
         ("query",
          match geoQuery (geoAlt r3).2 with
          | some q => if q = [] then .jnull else .jstr (String.mk q)
          | none => .jnull)]

/-- `QRCodeParser.parseGeo`. -/
def parseGeo (env : JsEnv) (s : String) : JsonVal :=
  if ciStartsWith s "geo:" then
    match (s.data.drop 4).takeWhile geoClass, (s.data.drop 4).dropWhile geoClass with
    | [], _ => geoBad s
    | g1, ',' :: r2 =>
      match r2.takeWhile geoClass, r2.dropWhile geoClass with
      | [], _ => geoBad s
      | g2, r3 => geoObj env g1 g2 r3
    | _, _ => geoBad s
  else geoBad s

/-- `QRCodeParser.parseMultidimensional`. -/
def parseMultidimensional (s : String) : JsonVal :=
  match jsonParse s with
  | none => .jobj [("error", .jstr "Failed to parse multidimensional data")]
  | some parsed =>
    let metadata : JsonVal :=
      match getField parsed "metadata" with
      | some m => if truthy m then m else .jobj []
      | none => .jobj []
    if layersIsArray parsed then
      match getField parsed "layers" with
      | some (.jarr ls) =>
        let mapped := ls.enum.map (fun iw =>
          JsonVal.jobj [
            ("layer", .jnum iw.1),
            ("data",
             match getField iw.2 "data" with
             | some d => if truthy d then d else iw.2
             | none => iw.2),
            ("checksum", (getField iw.2 "checksum").getD .jnull),
            ("dependencies",
             match getField iw.2 "dependencies" with
             | some d => if truthy d then d else .jarr []
             | none => .jarr [])])
        .jobj [("total_layers", .jnum ls.length), ("layers", .jarr mapped),
               ("metadata", metadata)]
      | _ => .jobj [("total_layers", .jnum 0), ("layers", .jarr []), ("metadata", metadata)]
    else
      .jobj [("total_layers", .jnum 0), ("layers", .jarr []), ("metadata", metadata)]

/-- Field of `parsed.data` projected by `parseMedicineTracking`
(`undefined` modelled by `jnull`). -/
def dataFieldD (parsed : JsonVal) (k : String) : JsonVal :=
  match getField parsed "data" with
  | some d => (getField d k).getD .jnull
  | none => .jnull

/-- `QRCodeParser.parseMedicineTracking`. -/
def parseMedicineTracking (env : JsEnv) (s : String) : JsonVal :=
  match jsonParse s with
  | none => .jobj [("error", .jstr "Failed to parse medicine tracking data"), ("raw", .jstr s)]
  | some parsed =>
    if medTrackShape parsed then
      let expiry := match getField parsed "data" with
        | some d => getField d "expiry_date"
        | none => none
      .jobj [("medicine_type", .jstr "medicine_tracking"),
             ("scan_timestamp", .jstr env.nowIso),
             ("generated_timestamp", (getField parsed "timestamp").getD .jnull),
             ("medicine_id", dataFieldD parsed "medicine_id"),
             ("medicine_name", dataFieldD parsed "medicine_name"),
             ("batch_number", dataFieldD parsed "batch_number"),
             ("manufacturing_date", dataFieldD parsed "manufacturing_date"),
             ("expiry_date", dataFieldD parsed "expiry_date"),
             ("manufacturer", dataFieldD parsed "manufacturer"),
             ("dosage_form", dataFieldD parsed "dosage_form"),
             ("strength", dataFieldD parsed "strength"),
             ("active_ingredient", dataFieldD parsed "active_ingredient"),
             ("ndc_number", dataFieldD parsed "ndc_number"),
             ("lot_number", dataFieldD parsed "lot_number"),
             ("storage_conditions", dataFieldD parsed "storage_conditions"),
             ("prescription_required", dataFieldD parsed "prescription_required"),
             ("tracking_id", dataFieldD parsed "tracking_id"),
             ("verification_code", dataFieldD parsed "verification_code"),
             ("medicine_data", (getField parsed "data").getD .jnull),
             ("raw_medicine_data", parsed),
             ("is_expired", .jbool (env.dateBefore expiry)),
             ("days_until_expiry", .jnum (env.daysUntil expiry))]
    else parsed

/-- `QRCodeParser.extractStructuredData`; `none` models an exception
escaping the extractor into `parseQRCode`'s catch. -/
def extractStructuredData (env : JsEnv) (s : String) (t : QRDataType) : Option JsonVal :=
  match t with
  | .url => some (parseURL env s)
  | .email => parseEmail env s
  | .phone => some (parsePhone s)
  | .wifi => some (parseWiFi s)
  | .vcard => some (parseVCard s)
  | .geo => some (parseGeo env s)
  | .json =>
    match jsonParse s with
    | some v => some v
    | none => none
  | .multidimensional => some (parseMultidimensional s)
  | .medicine_tracking => some (parseMedicineTracking env s)
  | .custom =>
    match jsonParse s with
    | some v => some v
    | none => some (.jobj [("text", .jstr s)])
  | _ => some (.jobj [("text", .jstr s)])

/-! ### `QRCodeParser.calculateDimensions` -/

mutual

/-- Structural size of a parsed value, used as fuel below. -/
def jsize : JsonVal → Nat
  | .jnull => 1
  | .jbool _ => 1
  | .jnum _ => 1
  | .jstr _ => 1
  | .jarr xs => 1 + jsizeList xs
  | .jobj fs => 1 + jsizeFields fs

def jsizeList : List JsonVal → Nat
  | [] => 0
  | v :: rest => jsize v + jsizeList rest

def jsizeFields : List (String × JsonVal) → Nat
  | [] => 0
  | kv :: rest => jsize kv.2 + jsizeFields rest

end

/-- The inner `calculateDepth` of `calculateDimensions`, with explicit
fuel (the JS recursion always terminates on finite values; the fuel is
instantiated with `jsize`, which bounds the nesting height). -/
def calculateDepth : Nat → JsonVal → Nat → Nat
  | 0, _, d => d
  | Nat.succ fuel, v, d =>
    match v with
    | .jobj fs =>
      (fs.map Prod.snd).foldl
        (fun m w => if isObjLike w then max m (calculateDepth fuel w (d + 1)) else m) d
    | .jarr xs =>
      xs.foldl
        (fun m w => if isObjLike w then max m (calculateDepth fuel w (d + 1)) else m) d
    | _ => d

/-- `QRCodeParser.calculateDimensions`. -/
def calculateDimensions (data : JsonVal) : Nat :=
  if layersIsArray data then
    match getField data "layers" with
    | some (.jarr l) => l.length
    | _ => 0
  else calculateDepth (jsize data) data 1

/-! ### `QRCodeParser.validateData` -/

/-- JS `x.length > 0` under truthiness (`undefined > 0` is false). -/
def jsLengthPos : JsonVal → Bool
  | .jarr l => decide (0 < l.length)
  | .jstr s => decide (0 < s.length)
  | _ => false

/-- `QRCodeParser.validateData`. -/
def validateData (data : JsonVal) (t : QRDataType) : ValidationStatus :=
  if truthyField data "error" then .corrupted
  else match t with
  | .url => if truthyField data "url" && !truthyField data "error" then .valid else .invalid
  | .email => if truthyField data "email" then .valid else .invalid
  | .multidimensional =>
    if (match getField data "layers" with
        | some v => truthy v && jsLengthPos v
        | none => false)
    then .valid else .incomplete
  | .medicine_tracking =>
    if truthyField data "medicine_id" && truthyField data "medicine_name" &&
       truthyField data "batch_number"
    then .valid else .incomplete
  | .custom => .valid
  | _ => .valid

/-! ### `QRCodeParser.parseQRCode` -/

/-- The fields of the `Partial<QRCodeData>` record built by `parseQRCode`. -/
structure ParsedRecord : Type where
  raw_data : String
  parsed_data : JsonVal
  data_type : QRDataType
  dimensions : Nat
  validation_status : ValidationStatus
  scan_timestamp : String

/-- `QRCodeParser.parseQRCode`: the catch branch is taken exactly when an
exception escapes extraction. -/
def parseQRCode (env : JsEnv) (s : String) : ParsedRecord :=
  let dataType := detectDataType s
  match extractStructuredData env s dataType with
  | some parsedData =>
    { raw_data := s
      parsed_data := parsedData
      data_type := dataType
      dimensions := calculateDimensions parsedData
      validation_status := validateData parsedData dataType
      scan_timestamp := env.nowIso }
  | none =>
    { raw_data := s
      parsed_data := .jobj [("error", .jstr "Failed to parse QR code")]
      data_type := .custom
      dimensions := 1
      validation_status := .corrupted
      scan_timestamp := env.nowIso }

/-! ### AgentPortal: geolocation, diversion, custody (`src/components/AgentPortal.tsx`) -/

/-- `interface GPSCoordinates` (numeric fields as exact rationals). -/
structure GPSCoordinates : Type where
  latitude : ℚ
  longitude : ℚ
  accuracy : ℚ
  timestamp : String
deriving DecidableEq, Repr

/-- `interface DistrictMapping` (name, centre coordinates, radius in km). -/
structure DistrictMapping : Type where
  name : String
  lat : ℚ
  lng : ℚ
  radius : ℚ
deriving DecidableEq, Repr

/-- The static `bangladeshDistricts` registry. -/
def bangladeshDistricts : List DistrictMapping :=
  [⟨"Dhaka", 23.8103, 90.4125, 50⟩,
   ⟨"Chittagong", 22.3569, 91.7832, 40⟩,
   ⟨"Sylhet", 24.8949, 91.8687, 35⟩,
   ⟨"Rajshahi", 24.3745, 88.6042, 30⟩,
   ⟨"Khulna", 22.8456, 89.5403, 35⟩,
   ⟨"Barisal", 22.7010, 90.3535, 25⟩,
   ⟨"Rangpur", 25.7439, 89.2752, 30⟩,
   ⟨"Mymensingh", 24.7471, 90.4203, 25⟩,
   ⟨"Comilla", 23.4607, 91.1809, 20⟩,
   ⟨"Narayanganj", 23.6238, 90.4990, 15⟩,
   ⟨"Gazipur", 23.9999, 90.4203, 20⟩,
   ⟨"Tangail", 24.2513, 89.9167, 25⟩,
   ⟨"Jessore", 23.1697, 89.2072, 25⟩,
   ⟨"Bogra", 24.8465, 89.3776, 20⟩,
   ⟨"Dinajpur", 25.6217, 88.6354, 20⟩,
   ⟨"Pabna", 24.0064, 89.2372, 18⟩,
   ⟨"Kushtia", 23.9013, 89.1206, 18⟩,
   ⟨"Faridpur", 23.6070, 89.8429, 20⟩,
   ⟨"Brahmanbaria", 23.9571, 91.1115, 15⟩,
   ⟨"Noakhali", 22.8696, 91.0995, 20⟩]

/-- The type of distance functions from a GPS point to a district centre.
`calculateDistance` computes the haversine distance (Earth radius 6371 km)
in floating point; the selection logic of `detectDistrict` is verified for
every distance function, which subsumes the floating-point haversine. -/
abbrev Dist : Type := GPSCoordinates → DistrictMapping → ℚ

/-- One iteration of the `forEach` accumulator of `detectDistrict`:
`none` as stored minimum models the initial `Infinity`. -/
def detectStep (dist : Dist) (gps : GPSCoordinates)
    (acc : String × Option ℚ) (d : DistrictMapping) : String × Option ℚ :=
  let distance := dist gps d
  let lessMin : Bool :=
    match acc.2 with
    | none => true
    | some m => decide (distance < m)
  if lessMin && decide (distance ≤ d.radius) then (d.name, some distance) else acc

/-- `detectDistrict`: nearest registered district whose radius contains
the point, `"Unknown"` otherwise. -/
def detectDistrict (dist : Dist) (districts : List DistrictMapping)
    (gps : GPSCoordinates) : String :=
  (districts.foldl (detectStep dist gps) ("Unknown", none)).1

/-- The diversion predicate of `handleScanSuccess`. -/
def isDiversion (currentDistrict assignedDistrict : String) : Bool :=
  currentDistrict ≠ assignedDistrict && assignedDistrict ≠ "Unknown" &&
  currentDistrict ≠ "Unknown"

/-- The diversion-distance computation of `handleScanSuccess`: distance
from the current point to the assigned district's registered centre,
`0` when no diversion or when the assigned name is not registered. -/
def diversionDistance (dist : Dist) (districts : List DistrictMapping)
    (currentDistrict assignedDistrict : String) (gps : GPSCoordinates) : ℚ :=
  if isDiversion currentDistrict assignedDistrict then
    match districts.find? (fun d => d.name = assignedDistrict) with
    | some d => dist gps d
    | none => 0
  else 0

/-! ### The content hash `generateHash` (btoa ∘ JSON.stringify + Date.now) -/

/-- The base64 alphabet. -/
def b64char (n : Nat) : Char :=
  "ABCDEFGHIJKLMNOPQRSTUVWXYZabcdefghijklmnopqrstuvwxyz0123456789+/".data.getD n 'A'

/-- `btoa`: base64 of a byte sequence. -/
def base64Encode : List Nat → List Char
  | a :: b :: c :: rest =>
    b64char (a / 4) :: b64char (a % 4 * 16 + b / 16) ::
    b64char (b % 16 * 4 + c / 64) :: b64char (c % 64) :: base64Encode rest
  | [a, b] => [b64char (a / 4), b64char (a % 4 * 16 + b / 16), b64char (b % 16 * 4), '=']
  | [a] => [b64char (a / 4), b64char (a % 4 * 16), '=', '=']
  | [] => []

/-- `generateHash`: `btoa(JSON.stringify(data) + Date.now()).substring(0, 16)`,
with the serialized payload and the millisecond clock as explicit inputs. -/
def generateHash (data : String) (nowMs : Nat) : String :=
  String.mk ((base64Encode ((data.data ++ (Nat.repr nowMs).data).map Char.toNat)).take 16)

/-- A minimal JSON string quoting (enough for the serialized shapes fed to
`generateHash`; only the fixed serialization prefix matters below). -/
def quoteJson (s : String) : String :=
  "\"" ++ String.mk (s.data.flatMap (fun c =>
    if c = '"' then ['\\', '"']
    else if c = '\\' then ['\\', '\\']
    else if c = '\n' then ['\\', 'n']
    else if c = '\r' then ['\\', 'r']
    else if c = '\t' then ['\\', 't']
    else [c])) ++ "\""

/-- `JSON.stringify` of the object handed to `generateHash` by
`createTamperProofLog`, with the serialized location (float rendering)
and optional additional data abstracted as strings; a `none`
`additionalData` is `undefined` and is dropped by `JSON.stringify`. -/
def stringifyLogData (eventType : String) (locJson : String)
    (timestamp agentId : String) (adJson : Option String) : String :=
  String.mk ("\x7b\"eventType\":".data ++ (quoteJson eventType).data ++
    ",\"location\":".data ++ locJson.data ++
    ",\"timestamp\":".data ++ (quoteJson timestamp).data ++
    ",\"agentId\":".data ++ (quoteJson agentId).data ++
    (match adJson with
     | some j => ",\"additionalData\":".data ++ j.data
     | none => []) ++ "\x7d".data)

/-! ### The tamper-proof log -/

/-- `TamperProofRecord['event_type']`. -/
inductive TamperEventType : Type where
  | custody_taken | location_update | delivery_attempt | alert_triggered
deriving DecidableEq, Repr

def TamperEventType.toStr : TamperEventType → String
  | .custody_taken => "custody_taken"
  | .location_update => "location_update"
  | .delivery_attempt => "delivery_attempt"
  | .alert_triggered => "alert_triggered"

/-- `interface TamperProofRecord`; `previous_hash` is optional in the
source (`previous_hash?: string`) and is modelled as an `Option`. -/
structure TamperProofRecord : Type where
  id : String
  event_type : TamperEventType
  gps_coordinates : GPSCoordinates
  timestamp : String
  hash : String
  previous_hash : Option String
deriving DecidableEq, Repr

/-- The inputs of one `createTamperProofLog` call: the fresh UUID, the
event type, location, ISO timestamp, agent id, serialized location and
optional serialized additional data, and the `Date.now()` sample. -/
structure LogArgs : Type where
  freshId : String
  eventType : TamperEventType
  location : GPSCoordinates
  now : String
  agentId : String
  locJson : String
  adJson : Option String
  nowMs : Nat
deriving DecidableEq, Repr

/-- `createTamperProofLog`: note that the source never assigns
`previous_hash` and hashes only the event type, location, timestamp,
agent id and additional data. -/
def createTamperProofLog (a : LogArgs) : TamperProofRecord where
  id := a.freshId
  event_type := a.eventType
  gps_coordinates := a.location
  timestamp := a.now
  hash := generateHash
    (stringifyLogData a.eventType.toStr a.locJson a.now a.agentId a.adJson) a.nowMs
  previous_hash := none

/-- The append performed on `tamper_proof_log` by `handleScanSuccess`
(`[...existing.tamper_proof_log, tamperProofLog]`). -/
def appendTamperLog (log : List TamperProofRecord) (a : LogArgs) : List TamperProofRecord :=
  log ++ [createTamperProofLog a]

/-! ### The transaction step of `handleScanSuccess` -/

/-- `CustodyRecord['action']`. -/
inductive CustodyAction : Type where
  | pickup | delivery | scan_verification
deriving DecidableEq, Repr

/-- `interface CustodyRecord` (without the optional photo evidence). -/
structure CustodyRecord : Type where
  id : String
  action : CustodyAction
  location : GPSCoordinates
  timestamp : String
  agent_id : String
  notes : String
deriving DecidableEq, Repr

/-- `AgentTransaction['status']`. -/
inductive TxStatus : Type where
  | picked_up | in_transit | delivered | diverted | missing
deriving DecidableEq, Repr

/-- `interface AgentTransaction` (the fields the verified properties
touch; the static strings of the source are kept). -/
structure AgentTransaction : Type where
  id : String
  qr_code_id : String
  assigned_district : String
  current_district : String
  pickup_location : GPSCoordinates
  delivery_location : Option GPSCoordinates
  pickup_timestamp : String
  delivery_timestamp : Option String
  agent_id : String
  status : TxStatus
  custody_chain : List CustodyRecord
  tamper_proof_log : List TamperProofRecord
  diversion_distance : ℚ
  alert_triggered : Bool
deriving DecidableEq, Repr

/-- The action derived from the active tab
(`activeTab === 'pickup' ? 'pickup' : 'delivery'`). -/
inductive ScanAction : Type where
  | pickup | delivery
deriving DecidableEq, Repr

/-- The per-scan inputs of `handleScanSuccess` after parsing: fresh
UUIDs, clock samples, the agent, the action, the current location and
the assigned district extracted from the QR payload. -/
structure ScanArgs : Type where
  freshTxId : String
  freshQrId : String
  freshCustodyId : String
  freshLogId : String
  now : String
  nowMs : Nat
  agentId : String
  action : ScanAction
  loc : GPSCoordinates
  assigned : String
  locJson : String
  adJson : Option String
deriving DecidableEq, Repr

/-- `parsedQR.id === t.qr_code_id` — strict equality against a possibly
`undefined` id (`undefined === string` is false). -/
def parsedIdMatches : Option String → String → Bool
  | none, _ => false
  | some s, q => s = q

/-- The transaction construction and state update of
`handleScanSuccess`, with the id found on the parsed record
(`parsedQR.id`) passed explicitly.  Returns the new transaction list
and the transaction that was created or updated. -/
def handleScan (dist : Dist) (registry : List DistrictMapping)
    (parsedQRId : Option String) (a : ScanArgs)
    (transactions : List AgentTransaction) :
    List AgentTransaction × AgentTransaction :=
  let currentDistrict := detectDistrict dist registry a.loc
  let isDiv := isDiversion currentDistrict a.assigned
  let divDist := diversionDistance dist registry currentDistrict a.assigned a.loc
  let custodyRecord : CustodyRecord :=
    { id := a.freshCustodyId
      action := match a.action with
        | .pickup => .pickup
        | .delivery => .delivery
      location := a.loc
      timestamp := a.now
      agent_id := a.agentId
      notes := match a.action with
        | .pickup => "Picked up from distributor"
        | .delivery => "Delivered to pharmacy" }
  let tamperLog := createTamperProofLog
    { freshId := a.freshLogId
      eventType := match a.action with
        | .pickup => .custody_taken
        | .delivery => .delivery_attempt
      location := a.loc
      now := a.now
      agentId := a.agentId
      locJson := a.locJson
      adJson := a.adJson
      nowMs := a.nowMs }
  let existing := transactions.find? (fun t => parsedIdMatches parsedQRId t.qr_code_id)
  let transaction : AgentTransaction :=
    match existing, a.action with
    | some t, .delivery =>
      { t with
        delivery_location := some a.loc
        delivery_timestamp := some a.now
        current_district := currentDistrict
        status := if isDiv then .diverted else .delivered
        diversion_distance := divDist
        alert_triggered := isDiv
        custody_chain := t.custody_chain ++ [custodyRecord]
        tamper_proof_log := appendTamperLog t.tamper_proof_log
          { freshId := a.freshLogId
            eventType := .delivery_attempt
            location := a.loc
            now := a.now
            agentId := a.agentId
            locJson := a.locJson
            adJson := a.adJson
            nowMs := a.nowMs } }
    | _, _ =>
      { id := a.freshTxId
        qr_code_id := match parsedQRId with
          | some s => if s ≠ "" then s else a.freshQrId
          | none => a.freshQrId
        assigned_district := a.assigned
        current_district := currentDistrict
        pickup_location := a.loc
        delivery_location := none
        pickup_timestamp := a.now
        delivery_timestamp := none
        agent_id := a.agentId
        status := .picked_up
        custody_chain := [custodyRecord]
        tamper_proof_log := [tamperLog]
        diversion_distance := divDist
        alert_triggered := isDiv }
  let newState :=
    match existing with
    | some _ => transactions.map (fun t => if t.id = transaction.id then transaction else t)
    | none => transaction :: transactions
  (newState, transaction)

/-- `handleScanSuccess` as actually executed: `parseQRCode` returns a
record without an `id` field, so `parsedQR.id` is always `undefined`. -/
def handleScanSuccess (dist : Dist) (registry : List DistrictMapping)
    (a : ScanArgs) (transactions : List AgentTransaction) :
    List AgentTransaction × AgentTransaction :=
  handleScan dist registry none a transactions

/-! ### `ArduinoCloudService.batchSync` (`src/services/arduinoCloud.ts`) -/

/-- The slice loop `for (let i = 0; i < qrCodes.length; i += 10)`,
with fuel bounded by the list length. -/
def batchChunksAux : Nat → List α → List (List α)
  | _, [] => []
  | 0, _ :: _ => []
  | Nat.succ f, l@(_ :: _) => l.take 10 :: batchChunksAux f (l.drop 10)

/-- The consecutive batches of size 10 taken by `batchSync`. -/
def batchChunks (l : List α) : List (List α) :=
  batchChunksAux l.length l

/-- The number of inter-batch delays: one after each batch start `i`
with `i + batchSize < qrCodes.length`. -/
def numDelaysAux : Nat → List α → Nat
  | _, [] => 0
  | 0, _ :: _ => 0
  | Nat.succ f, l@(_ :: _) => (if 10 < l.length then 1 else 0) + numDelaysAux f (l.drop 10)

/-- Inter-batch delays executed by `batchSync`. -/
def numDelays (l : List α) : Nat :=
  numDelaysAux l.length l

/-- `results.set(id, status)` on the JS `Map`: update in place or append. -/
def setOutcome : List (String × ArduinoSyncStatus) → String → ArduinoSyncStatus →
    List (String × ArduinoSyncStatus)
  | [], k, v => [(k, v)]
  | (k0, v0) :: rest, k, v =>
    if k0 = k then (k0, v) :: rest else (k0, v0) :: setOutcome rest k v

/-- `Map.get` on the result mapping. -/
def getOutcome : List (String × ArduinoSyncStatus) → String → Option ArduinoSyncStatus
  | [], _ => none
  | (k, v) :: rest, key => if k = key then some v else getOutcome rest key

/-- The result mapping built by `batchSync`: every record of every batch
gets its own `syncQRCodeData` outcome recorded under its id
(`Promise.allSettled` never aborts siblings; the per-record outcome is
abstracted as a function of the record). -/
def batchSync (outcome : α → ArduinoSyncStatus) (getId : α → String)
    (qrCodes : List α) : List (String × ArduinoSyncStatus) :=
  (batchChunks qrCodes).foldl
    (fun results batch =>
      batch.foldl (fun r q => setOutcome r (getId q) (outcome q)) results)
    []

/-! ## Supporting lemmas -/

/-- The accumulator of a max-fold never decreases. -/
lemma le_foldl_max (g : JsonVal → Nat) (p : JsonVal → Bool) :
    ∀ (l : List JsonVal) (a : Nat),
      a ≤ l.foldl (fun m w => if p w then max m (g w) else m) a := by
  intro l
  induction l with
  | nil => intro a; exact Nat.le_refl a
  | cons w l ih =>
    intro a
    refine Nat.le_trans ?_ (ih (if p w then max a (g w) else a))
    split
    · exact Nat.le_max_left _ _
    · exact Nat.le_refl a

/-- `calculateDepth` never returns less than its starting depth. -/
lemma le_calculateDepth : ∀ (fuel : Nat) (v : JsonVal) (d : Nat),
    d ≤ calculateDepth fuel v d := by
  intro fuel
  induction fuel with
  | zero => intro v d; exact Nat.le_refl d
  | succ fuel ih =>
    intro v d
    cases v with
    | jobj fs => exact le_foldl_max _ _ _ d
    | jarr xs => exact le_foldl_max _ _ _ d
    | jnull => exact Nat.le_refl d
    | jbool b => exact Nat.le_refl d
    | jnum q => exact Nat.le_refl d
    | jstr s => exact Nat.le_refl d

/-- When the `layers` check fails, `calculateDimensions` is a depth ≥ 1. -/
lemma one_le_calculateDimensions (data : JsonVal) (h : layersIsArray data = false) :
    1 ≤ calculateDimensions data := by
  unfold calculateDimensions
  rw [h]
  simpa using le_calculateDepth (jsize data) data 1

/-- A successful `layers` check exposes an object with an array field. -/
lemma layersIsArray_elim (v : JsonVal) (h : layersIsArray v = true) :
    ∃ ls, getField v "layers" = some (.jarr ls) := by
  unfold layersIsArray at h
  cases hg : getField v "layers" with
  | none => rw [hg] at h; exact absurd h (by simp)
  | some w =>
    rw [hg] at h
    cases w with
    | jarr ls => exact ⟨ls, rfl⟩
    | jnull => simp [truthy, isArrVal] at h
    | jbool b => simp [truthy, isArrVal] at h
    | jnum q => simp [truthy, isArrVal] at h
    | jstr s => simp [truthy, isArrVal] at h
    | jobj fs => simp [truthy, isArrVal] at h

/-- A found association pair is a member of the list. -/
lemma lookupField_mem : ∀ (fs : List (String × JsonVal)) (k : String) (w : JsonVal),
    lookupField fs k = some w → (k, w) ∈ fs := by
  intro fs
  induction fs with
  | nil => intro k w h; exact absurd h (by simp [lookupField])
  | cons kv rest ih =>
    intro k w h
    unfold lookupField at h
    cases hr : lookupField rest k with
    | some u =>
      rw [hr] at h
      cases h
      exact List.mem_cons_of_mem _ (ih _ _ hr)
    | none =>
      rw [hr] at h
      by_cases hk : kv.1 = k
      · rw [if_pos hk] at h
        injection h with h2
        subst h2
        rw [← hk]
        exact List.mem_cons_self _ _
      · rw [if_neg hk] at h
        exact absurd h (by simp)

/-- An object whose values are never arrays fails the `layers` check. -/
lemma layersIsArray_of_values (fs : List (String × JsonVal))
    (h : ∀ kv ∈ fs, isArrVal kv.2 = false) :
    layersIsArray (.jobj fs) = false := by
  unfold layersIsArray
  have hgf : getField (.jobj fs) "layers" = lookupField fs "layers" := rfl
  rw [hgf]
  cases hg : lookupField fs "layers" with
  | none => rfl
  | some w =>
    have hmem := lookupField_mem fs "layers" w hg
    have := h _ hmem
    simp only [this, Bool.and_false]

/-- `setField` preserves a predicate on all stored values. -/
lemma setField_values (P : JsonVal → Prop) :
    ∀ (fs : List (String × JsonVal)) (k : String) (v : JsonVal),
      (∀ kv ∈ fs, P kv.2) → P v → ∀ kv ∈ setField fs k v, P kv.2 := by
  intro fs
  induction fs with
  | nil =>
    intro k v _ hv kv hkv
    simp [setField] at hkv
    subst hkv
    exact hv
  | cons kv0 rest ih =>
    intro k v hall hv kv hkv
    unfold setField at hkv
    by_cases hk : kv0.1 = k
    · rw [if_pos hk] at hkv
      rcases List.mem_cons.mp hkv with h | h
      · rw [h]; exact hv
      · exact hall _ (List.mem_cons_of_mem _ h)
    · rw [if_neg hk] at hkv
      rcases List.mem_cons.mp hkv with h | h
      · rw [h]; exact hall _ (List.mem_cons_self _ _)
      · exact ih k v (fun kv hm => hall _ (List.mem_cons_of_mem _ hm)) hv _ h

/-- `vcardStep` preserves all-string-valued accumulators. -/
lemma vcardStep_values (acc : List (String × JsonVal)) (line : List Char)
    (hacc : ∀ kv ∈ acc, ∃ t, kv.2 = JsonVal.jstr t) :
    ∀ kv ∈ vcardStep acc line, ∃ t, kv.2 = JsonVal.jstr t := by
  unfold vcardStep
  split
  · exact setField_values (fun v => ∃ t, v = JsonVal.jstr t) acc _ _ hacc ⟨_, rfl⟩
  · exact hacc

/-- Every value stored by the `parseVCard` fold is a string. -/
lemma parseVCard_values (ls : List (List Char)) :
    ∀ (acc : List (String × JsonVal)),
      (∀ kv ∈ acc, ∃ t, kv.2 = JsonVal.jstr t) →
      ∀ kv ∈ ls.foldl vcardStep acc, ∃ t, kv.2 = JsonVal.jstr t := by
  induction ls with
  | nil => intro acc hacc kv hkv; exact hacc kv hkv
  | cons line rest ih =>
    intro acc hacc kv hkv
    rw [List.foldl_cons] at hkv
    exact ih _ (vcardStep_values acc line hacc) kv hkv

/-- `parseVCard` output fails the `layers` check. -/
lemma parseVCard_noLayers (s : String) : layersIsArray (parseVCard s) = false := by
  unfold parseVCard
  refine layersIsArray_of_values _ ?_
  intro kv hkv
  obtain ⟨t, ht⟩ := parseVCard_values (splitOnChar '\n' s.data) [] (by simp) kv hkv
  rw [ht]
  rfl

/-- `parseURL` output fails the `layers` check. -/
lemma parseURL_noLayers (env : JsEnv) (s : String) :
    layersIsArray (parseURL env s) = false := by
  unfold parseURL
  cases env.urlParse s <;> rfl

/-- `parseEmail` output fails the `layers` check. -/
lemma parseEmail_noLayers (env : JsEnv) (s : String) (v : JsonVal)
    (h : parseEmail env s = some v) : layersIsArray v = false := by
  unfold parseEmail at h
  split at h
  · rcases Option.map_eq_some'.mp h with ⟨m, _, rfl⟩
    rfl
  · cases h
    rfl

/-- `parsePhone` output fails the `layers` check. -/
lemma parsePhone_noLayers (s : String) : layersIsArray (parsePhone s) = false := by
  rfl

/-- `parseWiFi` output fails the `layers` check. -/
lemma parseWiFi_noLayers (s : String) : layersIsArray (parseWiFi s) = false := by
  unfold parseWiFi
  repeat' split
  all_goals rfl

/-- `parseGeo` output fails the `layers` check. -/
lemma parseGeo_noLayers (env : JsEnv) (s : String) :
    layersIsArray (parseGeo env s) = false := by
  unfold parseGeo
  repeat' split
  all_goals rfl

/-- `parseMedicineTracking` on a payload with the tracking discriminator
fails the `layers` check. -/
lemma parseMedicineTracking_noLayers (env : JsEnv) (s : String) (v : JsonVal)
    (hj : jsonParse s = some v) (hm : medTrackShape v = true) :
    layersIsArray (parseMedicineTracking env s) = false := by
  unfold parseMedicineTracking
  rw [hj]
  simp only [hm, if_pos]
  rfl

/-- The closed tag set of the specification (no `custom`: that value is
only ever installed by `parseQRCode`'s catch branch, never by
classification). -/
def classifierTags : List QRDataType :=
  [.text, .url, .email, .phone, .sms, .wifi, .vcard, .event, .geo,
   .json, .xml, .multidimensional, .medicine_tracking]

/-- The pattern fallback produces one of the ten pattern tags. -/
lemma detectByPattern_cases (s : String) :
    detectByPattern s = .url ∨ detectByPattern s = .email ∨
    detectByPattern s = .phone ∨ detectByPattern s = .sms ∨
    detectByPattern s = .wifi ∨ detectByPattern s = .vcard ∨
    detectByPattern s = .event ∨ detectByPattern s = .geo ∨
    detectByPattern s = .xml ∨ detectByPattern s = .text := by
  unfold detectByPattern
  repeat' split
  all_goals simp

/-- Inversion facts about `detectDataType`. -/
lemma detectDataType_inv (s : String) :
    (detectDataType s = .json →
       ∃ v, jsonParse s = some v ∧ layersIsArray v = false) ∧
    (detectDataType s = .medicine_tracking →
       ∃ v, jsonParse s = some v ∧ medTrackShape v = true) ∧
    (detectDataType s = .multidimensional →
       ∃ v, jsonParse s = some v ∧ layersIsArray v = true) ∧
    detectDataType s ≠ .custom := by
  unfold detectDataType
  cases hj : jsonParse s with
  | none =>
    refine ⟨?_, ?_, ?_, ?_⟩ <;>
      rcases detectByPattern_cases s with h | h | h | h | h | h | h | h | h | h <;>
      simp [h]
  | some v =>
    by_cases ho : isObjLike v = true
    · by_cases hm : medTrackShape v = true
      · simp only [ho, hm, if_pos]
        exact ⟨by simp, fun _ => ⟨v, rfl, hm⟩, by simp, by simp⟩
      · by_cases hl : layersIsArray v = true
        · simp only [ho, hm, hl, if_pos, if_neg, Bool.false_eq_true, ite_false]
          exact ⟨by simp, by simp [hm], fun _ => ⟨v, rfl, hl⟩, by simp⟩
        · simp only [ho, hm, hl, if_pos, Bool.false_eq_true, if_neg, ite_false]
          refine ⟨fun _ => ⟨v, rfl, by simpa using hl⟩, by simp [hm], ?_, by simp⟩
          intro h
          exact absurd h (by simp)
    · simp only [Bool.not_eq_true] at ho
      simp only [ho, Bool.false_eq_true, if_neg, ite_false]
      refine ⟨?_, ?_, ?_, ?_⟩ <;>
        rcases detectByPattern_cases s with h | h | h | h | h | h | h | h | h | h <;>
        simp [h]

/-- Classification only produces the thirteen specification tags. -/
lemma detectDataType_mem (s : String) : detectDataType s ∈ classifierTags := by
  unfold detectDataType
  cases hj : jsonParse s with
  | none =>
    rcases detectByPattern_cases s with h | h | h | h | h | h | h | h | h | h <;>
      simp [h, classifierTags]
  | some v =>
    by_cases ho : isObjLike v = true
    · by_cases hm : medTrackShape v = true
      · simp [ho, hm, classifierTags]
      · by_cases hl : layersIsArray v = true
        · simp [ho, hm, hl, classifierTags]
        · simp only [ho, hm, hl, if_pos, Bool.false_eq_true, if_neg, ite_false]
          simp [classifierTags]
    · simp only [Bool.not_eq_true] at ho
      simp only [ho, Bool.false_eq_true, if_neg, ite_false]
      rcases detectByPattern_cases s with h | h | h | h | h | h | h | h | h | h <;>
        simp [h, classifierTags]

/-! ## Claims -/

/-- C2: classification (`detectDataType`, as invoked by `parseQRCode`) is
total and deterministic: equal raw strings classify to equal tags, the
tag always lies in the closed thirteen-tag set, and the tag stored by
`parseQRCode` is the classifier's tag except in the catch branch, which
stores `custom`. -/
theorem classify_total_deterministic (s t : String) (h : s = t) :
    detectDataType s = detectDataType t ∧
    detectDataType s ∈ classifierTags ∧
    ∀ env, (parseQRCode env s).data_type = detectDataType s ∨
      (parseQRCode env s).data_type = .custom := by
  subst h
  refine ⟨rfl, detectDataType_mem s, ?_⟩
  intro env
  cases hx : extractStructuredData env s (detectDataType s) with
  | some pd => left; simp [parseQRCode, hx]
  | none => right; simp [parseQRCode, hx]

/-- C2 witness. -/
theorem classify_total_deterministic_witness :
    ("" : String) = "" ∧ detectDataType "" = detectDataType "" ∧
    detectDataType "" ∈ classifierTags := by
  have h := classify_total_deterministic "" "" rfl
  exact ⟨rfl, h.1, h.2.1⟩

/-- C7 counterexample: a field mapping containing an `error` key whose
value is falsy (the empty string) is not marked `corrupted`, so presence
of the key alone does not force `corrupted`. -/
theorem validateData_error_key_cx :
    (getField (.jobj [("error", .jstr "")]) "error").isSome = true ∧
    validateData (.jobj [("error", .jstr "")]) QRDataType.text ≠ .corrupted := by
  exact ⟨rfl, by decide⟩

/-- C7 amended: `validateData` returns `corrupted` iff the mapping's
`error` entry is present with a JS-truthy value; this is decided first
and no type-specific rule ever yields `corrupted`. -/
theorem validateData_corrupted_iff (data : JsonVal) (t : QRDataType) :
    validateData data t = .corrupted ↔ truthyField data "error" = true := by
  unfold validateData
  by_cases h : truthyField data "error" = true
  · simp [h]
  · simp only [Bool.not_eq_true] at h
    simp only [h, Bool.false_eq_true, if_neg, ite_false]
    constructor
    · intro hc
      exfalso
      cases t <;> revert hc <;> simp <;> split <;> simp
    · intro hc
      exact absurd hc (by simp)

/-- C10: parsing the empty raw string yields a well-formed record:
tag `text`, mapping `{text: ""}` without an `error` key, dimensionality
1 and validation status `valid`. -/
theorem parseQRCode_empty (env : JsEnv) :
    (parseQRCode env "").data_type = .text ∧
    (parseQRCode env "").parsed_data = .jobj [("text", .jstr "")] ∧
    getField (parseQRCode env "").parsed_data "error" = none ∧
    (parseQRCode env "").dimensions = 1 ∧
    (parseQRCode env "").validation_status = .valid :=
  ⟨rfl, rfl, rfl, rfl, rfl⟩

/-- Record projections of `parseQRCode` on successful extraction. -/
lemma parseQRCode_some (env : JsEnv) (s : String) (pd : JsonVal)
    (hx : extractStructuredData env s (detectDataType s) = some pd) :
    (parseQRCode env s).data_type = detectDataType s ∧
    (parseQRCode env s).dimensions = calculateDimensions pd ∧
    (parseQRCode env s).parsed_data = pd := by
  refine ⟨?_, ?_, ?_⟩ <;> simp [parseQRCode, hx]

/-- Record projections of `parseQRCode` in the catch branch. -/
lemma parseQRCode_none (env : JsEnv) (s : String)
    (hx : extractStructuredData env s (detectDataType s) = none) :
    (parseQRCode env s).data_type = .custom ∧
    (parseQRCode env s).dimensions = 1 ∧
    (parseQRCode env s).parsed_data = .jobj [("error", .jstr "Failed to parse QR code")] := by
  refine ⟨?_, ?_, ?_⟩ <;> simp [parseQRCode, hx]

/-- Without a `layers` array, `calculateDimensions` is the depth fold. -/
lemma calculateDimensions_eq_depth (data : JsonVal) (h : layersIsArray data = false) :
    calculateDimensions data = calculateDepth (jsize data) data 1 := by
  unfold calculateDimensions
  rw [h]
  simp

/-- Dimensions of the object built by `parseMultidimensional`. -/
lemma parseMultidimensional_dims (s : String) (v : JsonVal) (ls : List JsonVal)
    (hj : jsonParse s = some v) (hl : layersIsArray v = true)
    (hgf : getField v "layers" = some (.jarr ls)) :
    calculateDimensions (parseMultidimensional s) = ls.length := by
  unfold parseMultidimensional
  rw [hj]
  simp only [hl, if_pos, hgf]
  simp [calculateDimensions, layersIsArray, getField, lookupField, truthy, isArrVal]

/-- The common non-layered case of the dimensionality claim. -/
lemma dimensions_amended_aux (env : JsEnv) (s : String) (pd : JsonVal)
    (hx : extractStructuredData env s (detectDataType s) = some pd)
    (hnm : detectDataType s ≠ .multidimensional)
    (hnl : layersIsArray pd = false) :
    ((parseQRCode env s).data_type = .multidimensional →
      ∃ v ls, jsonParse s = some v ∧ getField v "layers" = some (.jarr ls) ∧
        (parseQRCode env s).dimensions = ls.length) ∧
    ((parseQRCode env s).data_type ≠ .multidimensional →
      (parseQRCode env s).dimensions =
        calculateDepth (jsize (parseQRCode env s).parsed_data)
          (parseQRCode env s).parsed_data 1 ∧
      1 ≤ (parseQRCode env s).dimensions) := by
  obtain ⟨hdt, hdim, hpd⟩ := parseQRCode_some env s pd hx
  constructor
  · intro habs
    rw [hdt] at habs
    exact absurd habs hnm
  · intro _
    rw [hdim, hpd]
    exact ⟨calculateDimensions_eq_depth pd hnl, one_le_calculateDimensions pd hnl⟩

/-- C3 amended: dimensionality is at least 1 and equals the depth fold
for every record except layered payloads, where it equals the layer
count exactly — with no minimum-1 clamp, so it is 0 for an empty
`layers` list. -/
theorem dimensions_amended (env : JsEnv) (s : String) :
    ((parseQRCode env s).data_type = .multidimensional →
      ∃ v ls, jsonParse s = some v ∧ getField v "layers" = some (.jarr ls) ∧
        (parseQRCode env s).dimensions = ls.length) ∧
    ((parseQRCode env s).data_type ≠ .multidimensional →
      (parseQRCode env s).dimensions =
        calculateDepth (jsize (parseQRCode env s).parsed_data)
          (parseQRCode env s).parsed_data 1 ∧
      1 ≤ (parseQRCode env s).dimensions) := by
  cases hx : extractStructuredData env s (detectDataType s) with
  | none =>
    obtain ⟨hdt, hdim, hpd⟩ := parseQRCode_none env s hx
    constructor
    · intro habs
      rw [hdt] at habs
      cases habs
    · intro _
      rw [hdim, hpd]
      exact ⟨rfl, Nat.le_refl 1⟩
  | some pd =>
    have hinv := detectDataType_inv s
    cases ht : detectDataType s with
    | text =>
      have hx0 := hx
      rw [ht] at hx
      simp only [extractStructuredData, Option.some.injEq] at hx
      exact dimensions_amended_aux env s pd hx0 (by rw [ht]; simp) (by rw [← hx]; rfl)
    | sms =>
      have hx0 := hx
      rw [ht] at hx
      simp only [extractStructuredData, Option.some.injEq] at hx
      exact dimensions_amended_aux env s pd hx0 (by rw [ht]; simp) (by rw [← hx]; rfl)
    | xml =>
      have hx0 := hx
      rw [ht] at hx
      simp only [extractStructuredData, Option.some.injEq] at hx
      exact dimensions_amended_aux env s pd hx0 (by rw [ht]; simp) (by rw [← hx]; rfl)
    | event =>
      have hx0 := hx
      rw [ht] at hx
      simp only [extractStructuredData, Option.some.injEq] at hx
      exact dimensions_amended_aux env s pd hx0 (by rw [ht]; simp) (by rw [← hx]; rfl)
    | url =>
      have hx0 := hx
      rw [ht] at hx
      simp only [extractStructuredData, Option.some.injEq] at hx
      exact dimensions_amended_aux env s pd hx0 (by rw [ht]; simp)
        (by rw [← hx]; exact parseURL_noLayers env s)
    | email =>
      have hx0 := hx
      rw [ht] at hx
      simp only [extractStructuredData] at hx
      exact dimensions_amended_aux env s pd hx0 (by rw [ht]; simp)
        (parseEmail_noLayers env s pd hx)
    | phone =>
      have hx0 := hx
      rw [ht] at hx
      simp only [extractStructuredData, Option.some.injEq] at hx
      exact dimensions_amended_aux env s pd hx0 (by rw [ht]; simp)
        (by rw [← hx]; exact parsePhone_noLayers s)
    | wifi =>
      have hx0 := hx
      rw [ht] at hx
      simp only [extractStructuredData, Option.some.injEq] at hx
      exact dimensions_amended_aux env s pd hx0 (by rw [ht]; simp)
        (by rw [← hx]; exact parseWiFi_noLayers s)
    | vcard =>
      have hx0 := hx
      rw [ht] at hx
      simp only [extractStructuredData, Option.some.injEq] at hx
      exact dimensions_amended_aux env s pd hx0 (by rw [ht]; simp)
        (by rw [← hx]; exact parseVCard_noLayers s)
    | geo =>
      have hx0 := hx
      rw [ht] at hx
      simp only [extractStructuredData, Option.some.injEq] at hx
      exact dimensions_amended_aux env s pd hx0 (by rw [ht]; simp)
        (by rw [← hx]; exact parseGeo_noLayers env s)
    | json =>
      obtain ⟨v, hj, hlf⟩ := hinv.1 ht
      have hx0 := hx
      rw [ht] at hx
      simp only [extractStructuredData, hj, Option.some.injEq] at hx
      exact dimensions_amended_aux env s pd hx0 (by rw [ht]; simp) (by rw [← hx]; exact hlf)
    | medicine_tracking =>
      obtain ⟨v, hj, hm⟩ := hinv.2.1 ht
      have hx0 := hx
      rw [ht] at hx
      simp only [extractStructuredData, Option.some.injEq] at hx
      exact dimensions_amended_aux env s pd hx0 (by rw [ht]; simp)
        (by rw [← hx]; exact parseMedicineTracking_noLayers env s v hj hm)
    | custom =>
      exact absurd ht hinv.2.2.2
    | multidimensional =>
      obtain ⟨v, hj, hl⟩ := hinv.2.2.1 ht
      obtain ⟨ls, hgf⟩ := layersIsArray_elim v hl
      have hx0 := hx
      rw [ht] at hx
      simp only [extractStructuredData, Option.some.injEq] at hx
      obtain ⟨hdt, hdim, hpd⟩ := parseQRCode_some env s pd hx0
      constructor
      · intro _
        refine ⟨v, ls, hj, hgf, ?_⟩
        rw [hdim, ← hx]
        exact parseMultidimensional_dims s v ls hj hl hgf
      · intro habs
        rw [hdt, ht] at habs
        exact absurd rfl habs

/-- C3 counterexample: the layered payload `{"layers":[]}` classifies as
`multidimensional` and gets dimensionality 0, refuting
"dimensionality ≥ 1 always" and the minimum-1 clause. -/
theorem dimensions_zero_cx :
    (parseQRCode defaultEnv "\x7b\"layers\":[]\x7d").data_type = .multidimensional ∧
    (parseQRCode defaultEnv "\x7b\"layers\":[]\x7d").dimensions = 0 :=
  ⟨rfl, rfl⟩

/-- `detectStep` on an accumulator with no stored minimum. -/
lemma detectStep_none (dist : Dist) (gps : GPSCoordinates)
    (acc : String × Option ℚ) (d : DistrictMapping) (h : acc.2 = none) :
    detectStep dist gps acc d =
      if dist gps d ≤ d.radius then (d.name, some (dist gps d)) else acc := by
  unfold detectStep
  rw [h]
  by_cases hq : dist gps d ≤ d.radius <;> simp [hq]

/-- `detectStep` on an accumulator with a stored minimum. -/
lemma detectStep_some (dist : Dist) (gps : GPSCoordinates)
    (acc : String × Option ℚ) (d : DistrictMapping) (m0 : ℚ) (h : acc.2 = some m0) :
    detectStep dist gps acc d =
      if dist gps d < m0 ∧ dist gps d ≤ d.radius
      then (d.name, some (dist gps d)) else acc := by
  unfold detectStep
  rw [h]
  by_cases h1 : dist gps d < m0 <;> by_cases h2 : dist gps d ≤ d.radius <;>
    simp [h1, h2]

/-- Invariant of the `forEach` accumulator of `detectDistrict`: with no
stored minimum the name is still `"Unknown"` and nothing qualified; with
a stored minimum, the name belongs to the earliest qualifying district
of minimal distance. -/
lemma detectDistrict_fold_inv (dist : Dist) (gps : GPSCoordinates)
    (L : List DistrictMapping) :
    ((L.foldl (detectStep dist gps) ("Unknown", none)).2 = none →
      (L.foldl (detectStep dist gps) ("Unknown", none)).1 = "Unknown" ∧
      ∀ d ∈ L, ¬ (dist gps d ≤ d.radius)) ∧
    (∀ m, (L.foldl (detectStep dist gps) ("Unknown", none)).2 = some m →
      ∃ i, ∃ hi : i < L.length,
        (L.foldl (detectStep dist gps) ("Unknown", none)).1 = (L.get ⟨i, hi⟩).name ∧
        m = dist gps (L.get ⟨i, hi⟩) ∧
        dist gps (L.get ⟨i, hi⟩) ≤ (L.get ⟨i, hi⟩).radius ∧
        (∀ j, ∀ hj : j < L.length,
          dist gps (L.get ⟨j, hj⟩) ≤ (L.get ⟨j, hj⟩).radius → m ≤ dist gps (L.get ⟨j, hj⟩)) ∧
        (∀ j, ∀ hj : j < L.length, j < i →
          dist gps (L.get ⟨j, hj⟩) ≤ (L.get ⟨j, hj⟩).radius → m < dist gps (L.get ⟨j, hj⟩))) := by
  induction L using List.reverseRecOn with
  | nil =>
    constructor
    · intro _
      exact ⟨rfl, by simp⟩
    · intro m h
      cases h
  | append_singleton L x ih =>
    have hfold : (L ++ [x]).foldl (detectStep dist gps) ("Unknown", none) =
        detectStep dist gps (L.foldl (detectStep dist gps) ("Unknown", none)) x :=
      List.foldl_concat _ _ x L
    have hlast : ∀ hj : L.length < (L ++ [x]).length, (L ++ [x]).get ⟨L.length, hj⟩ = x := by
      intro hj
      simp [List.get_eq_getElem]
    have hleft : ∀ (j : Nat) (hjl : j < L.length) (hj : j < (L ++ [x]).length),
        (L ++ [x]).get ⟨j, hj⟩ = L.get ⟨j, hjl⟩ := by
      intro j hjl hj
      simp [List.get_eq_getElem, List.getElem_append_left hjl]
    rw [hfold]
    cases hacc : (L.foldl (detectStep dist gps) ("Unknown", none)).2 with
    | none =>
      obtain ⟨hname, hnone⟩ := ih.1 hacc
      rw [detectStep_none dist gps _ x hacc]
      by_cases hq : dist gps x ≤ x.radius
      · rw [if_pos hq]
        constructor
        · intro h
          cases h
        · intro m hm
          injection hm with hm
          subst hm
          have hLlt : L.length < (L ++ [x]).length := by simp
          refine ⟨L.length, hLlt, by rw [hlast hLlt], by rw [hlast hLlt], ?_, ?_, ?_⟩
          · rw [hlast hLlt]
            exact hq
          · intro j hj hqj
            rcases Nat.lt_or_ge j L.length with hjl | hjl
            · exfalso
              apply hnone (L.get ⟨j, hjl⟩) (List.get_mem L _ _)
              rw [hleft j hjl hj] at hqj
              exact hqj
            · have hjx : j = L.length := by
                have := hj
                simp only [List.length_append, List.length_singleton] at this
                omega
              subst hjx
              rw [hlast hj]
          · intro j hj hji hqj
            exfalso
            have hjl : j < L.length := hji
            apply hnone (L.get ⟨j, hjl⟩) (List.get_mem L _ _)
            rw [hleft j hjl hj] at hqj
            exact hqj
      · rw [if_neg hq]
        constructor
        · intro _
          refine ⟨hname, ?_⟩
          intro d hd
          rcases List.mem_append.mp hd with hdl | hdx
          · exact hnone d hdl
          · rw [List.mem_singleton.mp hdx]
            exact hq
        · intro m hm
          rw [hacc] at hm
          cases hm
    | some m0 =>
      obtain ⟨i, hi, hname, hm0, hqi, hmin, hstrict⟩ := ih.2 m0 hacc
      rw [detectStep_some dist gps _ x m0 hacc]
      by_cases hc : dist gps x < m0 ∧ dist gps x ≤ x.radius
      · rw [if_pos hc]
        constructor
        · intro h
          cases h
        · intro m hm
          injection hm with hm
          subst hm
          have hLlt : L.length < (L ++ [x]).length := by simp
          refine ⟨L.length, hLlt, by rw [hlast hLlt], by rw [hlast hLlt], ?_, ?_, ?_⟩
          · rw [hlast hLlt]
            exact hc.2
          · intro j hj hqj
            rcases Nat.lt_or_ge j L.length with hjl | hjl
            · rw [hleft j hjl hj] at hqj ⊢
              exact le_of_lt (lt_of_lt_of_le hc.1 (hmin j hjl hqj))
            · have hjx : j = L.length := by
                have := hj
                simp only [List.length_append, List.length_singleton] at this
                omega
              subst hjx
              rw [hlast hj]
          · intro j hj hji hqj
            have hjl : j < L.length := hji
            rw [hleft j hjl hj] at hqj ⊢
            exact lt_of_lt_of_le hc.1 (hmin j hjl hqj)
      · rw [if_neg hc]
        constructor
        · intro h
          rw [hacc] at h
          cases h
        · intro m hm
          rw [hacc] at hm
          injection hm with hm
          subst hm
          have hi' : i < (L ++ [x]).length := by
            simp only [List.length_append, List.length_singleton]
            omega
          refine ⟨i, hi', by rw [hleft i hi hi']; exact hname,
            by rw [hleft i hi hi']; exact hm0,
            by rw [hleft i hi hi']; exact hqi, ?_, ?_⟩
          · intro j hj hqj
            rcases Nat.lt_or_ge j L.length with hjl | hjl
            · rw [hleft j hjl hj] at hqj ⊢
              exact hmin j hjl hqj
            · have hjx : j = L.length := by
                have := hj
                simp only [List.length_append, List.length_singleton] at this
                omega
              subst hjx
              rw [hlast hj] at hqj ⊢
              by_contra hlt
              push_neg at hlt
              exact hc ⟨hlt, hqj⟩
          · intro j hj hji hqj
            have hjl : j < L.length := lt_trans hji hi
            rw [hleft j hjl hj] at hqj ⊢
            exact hstrict j hjl hji hqj

/-- C4: the geolocation resolver returns "Unknown" when no registry
entry's radius contains the point's distance, and otherwise the name of
the qualifying entry of minimal distance, the earliest in registry order
winning ties.  Proved for every distance function, hence in particular
for the haversine distance with Earth radius 6371 km computed by
`calculateDistance`. -/
theorem detectDistrict_correct (dist : Dist) (L : List DistrictMapping)
    (gps : GPSCoordinates) :
    ((∀ d ∈ L, ¬ (dist gps d ≤ d.radius)) → detectDistrict dist L gps = "Unknown") ∧
    ((∃ d ∈ L, dist gps d ≤ d.radius) →
      ∃ i, ∃ hi : i < L.length,
        detectDistrict dist L gps = (L.get ⟨i, hi⟩).name ∧
        dist gps (L.get ⟨i, hi⟩) ≤ (L.get ⟨i, hi⟩).radius ∧
        (∀ j, ∀ hj : j < L.length, dist gps (L.get ⟨j, hj⟩) ≤ (L.get ⟨j, hj⟩).radius →
          dist gps (L.get ⟨i, hi⟩) ≤ dist gps (L.get ⟨j, hj⟩)) ∧
        (∀ j, ∀ hj : j < L.length, j < i →
          dist gps (L.get ⟨j, hj⟩) ≤ (L.get ⟨j, hj⟩).radius →
          dist gps (L.get ⟨i, hi⟩) < dist gps (L.get ⟨j, hj⟩))) := by
  have hinv := detectDistrict_fold_inv dist gps L
  constructor
  · intro hnone
    cases hacc : (L.foldl (detectStep dist gps) ("Unknown", none)).2 with
    | none => exact (hinv.1 hacc).1
    | some m =>
      obtain ⟨i, hi, _, _, hqi, _, _⟩ := hinv.2 m hacc
      exact absurd hqi (hnone _ (List.get_mem L _ _))
  · intro hex
    cases hacc : (L.foldl (detectStep dist gps) ("Unknown", none)).2 with
    | none =>
      obtain ⟨d, hd, hq⟩ := hex
      exact absurd hq ((hinv.1 hacc).2 d hd)
    | some m =>
      obtain ⟨i, hi, hname, hm, hqi, hmin, hstrict⟩ := hinv.2 m hacc
      refine ⟨i, hi, hname, hqi, ?_, ?_⟩
      · intro j hj hqj
        rw [← hm]
        exact hmin j hj hqj
      · intro j hj hji hqj
        rw [← hm]
        exact hstrict j hj hji hqj

/-- C4 witness distance function. -/
def distChittagong : Dist := fun _ d => if d.name = "Chittagong" then 0 else 1000

/-- C4 witness GPS point (Chittagong's registered centre). -/
def gpsChittagong : GPSCoordinates := ⟨22.3569, 91.7832, 5, "t"⟩

/-- C4 witness. -/
theorem detectDistrict_correct_witness :
    (∃ d ∈ bangladeshDistricts, distChittagong gpsChittagong d ≤ d.radius) ∧
    (∃ i, ∃ hi : i < bangladeshDistricts.length,
      detectDistrict distChittagong bangladeshDistricts gpsChittagong =
        (bangladeshDistricts.get ⟨i, hi⟩).name ∧
      distChittagong gpsChittagong (bangladeshDistricts.get ⟨i, hi⟩) ≤
        (bangladeshDistricts.get ⟨i, hi⟩).radius ∧
      (∀ j, ∀ hj : j < bangladeshDistricts.length,
        distChittagong gpsChittagong (bangladeshDistricts.get ⟨j, hj⟩) ≤
          (bangladeshDistricts.get ⟨j, hj⟩).radius →
        distChittagong gpsChittagong (bangladeshDistricts.get ⟨i, hi⟩) ≤
          distChittagong gpsChittagong (bangladeshDistricts.get ⟨j, hj⟩)) ∧
      (∀ j, ∀ hj : j < bangladeshDistricts.length, j < i →
        distChittagong gpsChittagong (bangladeshDistricts.get ⟨j, hj⟩) ≤
          (bangladeshDistricts.get ⟨j, hj⟩).radius →
        distChittagong gpsChittagong (bangladeshDistricts.get ⟨i, hi⟩) <
          distChittagong gpsChittagong (bangladeshDistricts.get ⟨j, hj⟩))) :=
  ⟨by decide,
   (detectDistrict_correct distChittagong bangladeshDistricts gpsChittagong).2 (by decide)⟩

/-! ## The content hash (claims C6 and C1) -/

/-- `base64Encode` on a list with at least three bytes. -/
lemma base64Encode_cons3 (a b c : Nat) (r : List Nat) :
    base64Encode (a :: b :: c :: r) =
      b64char (a / 4) :: b64char (a % 4 * 16 + b / 16) ::
      b64char (b % 16 * 4 + c / 64) :: b64char (c % 64) :: base64Encode r := by
  rfl

/-- The first `4k` base64 characters depend only on the first `3k`
input bytes. -/
lemma base64_take_aux : ∀ (k : Nat) (l1 l2 : List Nat),
    l1.take (3 * k) = l2.take (3 * k) → 3 * k ≤ l1.length →
    (base64Encode l1).take (4 * k) = (base64Encode l2).take (4 * k) := by
  intro k
  induction k with
  | zero => intro l1 l2 _ _; simp
  | succ k ih =>
    intro l1 l2 h hlen
    have h3 : 3 * (k + 1) = 3 * k + 1 + 1 + 1 := by ring
    rw [h3] at h hlen
    rcases l1 with _ | ⟨a, l1⟩
    · simp at hlen
    rcases l1 with _ | ⟨b, l1⟩
    · simp at hlen
    rcases l1 with _ | ⟨c, r1⟩
    · simp at hlen
    simp only [List.take_succ_cons] at h
    rcases l2 with _ | ⟨a2, l2⟩
    · simp at h
    rcases l2 with _ | ⟨b2, l2⟩
    · simp at h
    rcases l2 with _ | ⟨c2, r2⟩
    · simp at h
    simp only [List.take_succ_cons, List.cons.injEq] at h
    obtain ⟨rfl, rfl, rfl, htake⟩ := h
    have hlen1 : 3 * k ≤ r1.length := by
      simp only [List.length_cons] at hlen
      omega
    have h4 : 4 * (k + 1) = 4 * k + 1 + 1 + 1 + 1 := by ring
    rw [h4, base64Encode_cons3, base64Encode_cons3]
    simp only [List.take_succ_cons, List.cons.injEq, true_and]
    exact ih r1 r2 htake hlen1

/-- C6: the custody hash is deterministic in its content inputs: two
computations of `generateHash` on the same serialized
(event type, location, timestamp, actor, additional data) agree for any
two `Date.now()` samples — the 16-character truncation keeps only the
first 12 bytes of the serialized JSON, so the appended clock value never
reaches the output. -/
theorem generateHash_deterministic (eventType locJson timestamp agentId : String)
    (adJson : Option String) (t1 t2 : Nat) :
    generateHash (stringifyLogData eventType locJson timestamp agentId adJson) t1 =
    generateHash (stringifyLogData eventType locJson timestamp agentId adJson) t2 := by
  unfold generateHash
  refine congrArg String.mk ?_
  have hlen : 12 ≤ (stringifyLogData eventType locJson timestamp agentId adJson).data.length := by
    unfold stringifyLogData
    simp only [String.data, List.length_append, List.length_cons, List.length_nil]
    omega
  have htake : ∀ t : Nat,
      (((stringifyLogData eventType locJson timestamp agentId adJson).data ++
        (Nat.repr t).data).map Char.toNat).take 12 =
      ((stringifyLogData eventType locJson timestamp agentId adJson).data.take 12).map
        Char.toNat := by
    intro t
    rw [← List.map_take, List.take_append_of_le_length hlen]
  have h12 : (12 : Nat) = 3 * 4 := by norm_num
  have h16 : (16 : Nat) = 4 * 4 := by norm_num
  rw [h16]
  refine base64_take_aux 4 _ _ ?_ ?_
  · rw [← h12, htake t1, htake t2]
  · rw [← h12]
    simp only [List.length_map, List.length_append]
    omega

/-- C6 witness. -/
theorem generateHash_deterministic_witness :
    generateHash (stringifyLogData "custody_taken" "\x7b\x7d"
      "2024-01-01T00:00:00.000Z" "AGENT-001" none) 1700000000000 =
    generateHash (stringifyLogData "custody_taken" "\x7b\x7d"
      "2024-01-01T00:00:00.000Z" "AGENT-001" none) 1700000000001 :=
  generateHash_deterministic "custody_taken" "\x7b\x7d"
    "2024-01-01T00:00:00.000Z" "AGENT-001" none 1700000000000 1700000000001

/-- Concrete log inputs for the C1 counterexample (first event). -/
def logArgs0 : LogArgs :=
  ⟨"log0", .custody_taken, ⟨23.8103, 90.4125, 5, "t0"⟩,
   "2024-01-01T00:00:00.000Z", "AGENT-001", "\x7b\x7d", none, 1700000000000⟩

/-- Concrete log inputs for the C1 counterexample (second event). -/
def logArgs1 : LogArgs :=
  ⟨"log1", .delivery_attempt, ⟨22.3569, 91.7832, 5, "t1"⟩,
   "2024-01-01T00:05:00.000Z", "AGENT-001", "\x7b\x7d", none, 1700000300000⟩

/-- C1 counterexample: in a two-event chain built by the code's own
append, the second event's stored `previous_hash` is absent, hence not
the hash of the first event: the chain linkage claimed for index `i>0`
does not hold. -/
theorem tamper_chain_cx :
    ((appendTamperLog (appendTamperLog [] logArgs0) logArgs1).get ⟨1, by decide⟩).previous_hash
      = none ∧
    ¬ ((appendTamperLog (appendTamperLog [] logArgs0) logArgs1).get ⟨1, by decide⟩).previous_hash
      = some (((appendTamperLog (appendTamperLog [] logArgs0) logArgs1).get
          ⟨0, by decide⟩).hash) := by
  constructor
  · rfl
  · intro h
    have h0 : ((appendTamperLog (appendTamperLog [] logArgs0) logArgs1).get
        ⟨1, by decide⟩).previous_hash = none := rfl
    rw [h0] at h
    cases h

/-- Chains are exactly the mapped appends. -/
lemma foldl_appendTamperLog (argsList : List LogArgs) :
    ∀ init, argsList.foldl appendTamperLog init =
      init ++ argsList.map createTamperProofLog := by
  induction argsList with
  | nil => intro init; simp
  | cons a rest ih =>
    intro init
    rw [List.foldl_cons, ih]
    simp [appendTamperLog]

/-- C1 amended: every event of every tamper-proof chain built by the
code's append has `previous_hash` absent (in particular the first event,
as claimed), and its stored hash is `generateHash` of the serialized
(event type, location, timestamp, actor, additional data) — computed
without any previous hash. -/
theorem tamper_chain_amended (argsList : List LogArgs) (e : TamperProofRecord)
    (he : e ∈ argsList.foldl appendTamperLog []) :
    ∃ a ∈ argsList, e = createTamperProofLog a ∧ e.previous_hash = none ∧
      e.hash = generateHash
        (stringifyLogData a.eventType.toStr a.locJson a.now a.agentId a.adJson)
        a.nowMs := by
  rw [foldl_appendTamperLog argsList []] at he
  simp only [List.nil_append] at he
  obtain ⟨a, ha, rfl⟩ := List.mem_map.mp he
  exact ⟨a, ha, rfl, rfl, rfl⟩

/-- C1 amended witness. -/
theorem tamper_chain_amended_witness :
    ∃ a ∈ [logArgs0], createTamperProofLog logArgs0 = createTamperProofLog a ∧
      (createTamperProofLog logArgs0).previous_hash = none ∧
      (createTamperProofLog logArgs0).hash = generateHash
        (stringifyLogData a.eventType.toStr a.locJson a.now a.agentId a.adJson)
        a.nowMs :=
  tamper_chain_amended [logArgs0] (createTamperProofLog logArgs0)
    (by rw [show ([logArgs0].foldl appendTamperLog []) =
          [createTamperProofLog logArgs0] from rfl]
        exact List.mem_singleton.mpr rfl)

/-! ## Diversion detection and the transaction step (claims C5 and C9) -/

/-- The transaction produced by `handleScan` always carries the
diversion verdict in `alert_triggered` and the computed diversion
distance, in both the update and the create branch. -/
lemma handleScan_tx (dist : Dist) (registry : List DistrictMapping)
    (pid : Option String) (a : ScanArgs) (txs : List AgentTransaction) :
    ((handleScan dist registry pid a txs).2).alert_triggered =
      isDiversion (detectDistrict dist registry a.loc) a.assigned ∧
    ((handleScan dist registry pid a txs).2).diversion_distance =
      diversionDistance dist registry (detectDistrict dist registry a.loc)
        a.assigned a.loc := by
  cases hf : txs.find? (fun t => parsedIdMatches pid t.qr_code_id) with
  | none => cases ha : a.action <;> constructor <;> simp [handleScan, hf, ha]
  | some t => cases ha : a.action <;> constructor <;> simp [handleScan, hf, ha]

/-- C5: diversion is asserted iff both region names are resolved and
differ; the produced transaction's alert flag equals the diversion
verdict; and under diversion, when the assigned name is registered, the
reported distance is measured from the current GPS point to the
**assigned** district's registered centre.  Diversion is never asserted
with an "Unknown" side. -/
theorem diversion_detector_correct (dist : Dist) (registry : List DistrictMapping)
    (pid : Option String) (a : ScanArgs) (txs : List AgentTransaction) :
    (isDiversion (detectDistrict dist registry a.loc) a.assigned = true ↔
      (a.assigned ≠ "Unknown" ∧ detectDistrict dist registry a.loc ≠ "Unknown" ∧
       detectDistrict dist registry a.loc ≠ a.assigned)) ∧
    ((handleScan dist registry pid a txs).2).alert_triggered =
      isDiversion (detectDistrict dist registry a.loc) a.assigned ∧
    (∀ d, isDiversion (detectDistrict dist registry a.loc) a.assigned = true →
      registry.find? (fun e => e.name = a.assigned) = some d →
      ((handleScan dist registry pid a txs).2).diversion_distance = dist a.loc d) ∧
    ((a.assigned = "Unknown" ∨ detectDistrict dist registry a.loc = "Unknown") →
      isDiversion (detectDistrict dist registry a.loc) a.assigned = false) := by
  refine ⟨?_, (handleScan_tx dist registry pid a txs).1, ?_, ?_⟩
  · unfold isDiversion
    constructor
    · intro h
      simp only [Bool.and_eq_true, decide_eq_true_eq] at h
      exact ⟨h.1.2, h.2, h.1.1⟩
    · intro h
      simp only [Bool.and_eq_true, decide_eq_true_eq]
      exact ⟨⟨h.2.2, h.1⟩, h.2.1⟩
  · intro d hdiv hfind
    rw [(handleScan_tx dist registry pid a txs).2]
    unfold diversionDistance
    rw [hdiv]
    simp [hfind]
  · intro h
    unfold isDiversion
    rcases h with h | h <;> simp [h]

/-- C5 witness distance function. -/
def distC5 : Dist := fun _ d => if d.name = "Chittagong" then 0 else 245

/-- C5 witness scan: a delivery scanned at Chittagong's centre while the
QR payload assigns the shipment to Dhaka. -/
def argsC5 : ScanArgs :=
  { freshTxId := "tx1", freshQrId := "qr1", freshCustodyId := "c1",
    freshLogId := "l1", now := "2024-01-01T00:00:00.000Z", nowMs := 1700000000000,
    agentId := "AGENT-001", action := .delivery,
    loc := ⟨22.3569, 91.7832, 5, "t"⟩, assigned := "Dhaka",
    locJson := "\x7b\x7d", adJson := none }

/-- C5 witness. -/
theorem diversion_detector_witness :
    isDiversion (detectDistrict distC5 bangladeshDistricts argsC5.loc) argsC5.assigned = true ∧
    ((handleScan distC5 bangladeshDistricts none argsC5 []).2).alert_triggered = true ∧
    ((handleScan distC5 bangladeshDistricts none argsC5 []).2).diversion_distance =
      distC5 argsC5.loc ⟨"Dhaka", 23.8103, 90.4125, 50⟩ := by
  have h := diversion_detector_correct distC5 bangladeshDistricts none argsC5 []
  refine ⟨by decide, ?_, h.2.2.1 ⟨"Dhaka", 23.8103, 90.4125, 50⟩ (by decide) (by rfl)⟩
  rw [h.2.1]
  decide

/-- The pickup scan of the C9 run: a pickup at Chittagong's centre of a
QR payload assigned to Chittagong (no diversion). -/
def argsPickupC9 : ScanArgs :=
  { freshTxId := "tx1", freshQrId := "qr1", freshCustodyId := "c1",
    freshLogId := "l1", now := "2024-01-01T00:00:00.000Z", nowMs := 1700000000000,
    agentId := "AGENT-001", action := .pickup,
    loc := ⟨22.3569, 91.7832, 5, "t"⟩, assigned := "Chittagong",
    locJson := "\x7b\x7d", adJson := none }

/-- The delivery scan of the C9 run: the same shipment delivered at its
assigned district. -/
def argsDeliveryC9 : ScanArgs :=
  { argsPickupC9 with
    action := ScanAction.delivery
    freshTxId := "tx2"
    freshQrId := "qr2"
    freshCustodyId := "c2"
    freshLogId := "l2"
    now := "2024-01-01T01:00:00.000Z"
    nowMs := 1700003600000 }

/-- The transaction list after the C9 pickup scan. -/
def stateAfterPickup : List AgentTransaction :=
  (handleScanSuccess distChittagong bangladeshDistricts argsPickupC9 []).1

/-- The transaction list after the C9 delivery scan. -/
def stateAfterDelivery : List AgentTransaction :=
  (handleScanSuccess distChittagong bangladeshDistricts argsDeliveryC9 stateAfterPickup).1

/-- C9: the `parsedQR.id` read by `handleScanSuccess` is never present
(`parseQRCode` returns no `id` field), so the lookup for an existing
transaction always fails and the delivery-update branch is dead: a
delivery scan following a pickup of the same QR code creates a second
transaction in status `picked_up` and no transaction ever becomes
`delivered` or `diverted`. -/
theorem delivery_update_dead :
    (∀ txs : List AgentTransaction,
      txs.find? (fun t => parsedIdMatches none t.qr_code_id) = none) ∧
    stateAfterPickup.length = 1 ∧
    stateAfterDelivery.length = 2 ∧
    stateAfterDelivery.map AgentTransaction.status = [.picked_up, .picked_up] ∧
    (∀ t ∈ stateAfterDelivery, t.status = .picked_up) := by
  refine ⟨?_, rfl, rfl, rfl, ?_⟩
  · intro txs
    refine List.find?_eq_none.mpr ?_
    intro t _
    simp [parsedIdMatches]
  · intro t ht
    have hlist : stateAfterDelivery.map AgentTransaction.status =
        [.picked_up, .picked_up] := rfl
    have hm := List.mem_map_of_mem AgentTransaction.status ht
    rw [hlist] at hm
    simp only [List.mem_cons, List.not_mem_nil, or_false] at hm
    rcases hm with h | h
    · exact h
    · exact h

/-! ## The sync orchestrator (claim C8) -/

/-- Unfolding of the batch loop on a non-empty list. -/
lemma batchChunksAux_succ (f : Nat) (l : List α) (h : l ≠ []) :
    batchChunksAux (f + 1) l = l.take 10 :: batchChunksAux f (l.drop 10) := by
  cases l with
  | nil => exact absurd rfl h
  | cons x xs => rfl

/-- Unfolding of the delay count on a non-empty list. -/
lemma numDelaysAux_succ (f : Nat) (l : List α) (h : l ≠ []) :
    numDelaysAux (f + 1) l = (if 10 < l.length then 1 else 0) + numDelaysAux f (l.drop 10) := by
  cases l with
  | nil => exact absurd rfl h
  | cons x xs => rfl

/-- The batches flatten back to the input list. -/
lemma batchChunksAux_flatten :
    ∀ (fuel : Nat) (l : List α), l.length ≤ fuel → (batchChunksAux fuel l).flatten = l := by
  intro fuel
  induction fuel with
  | zero =>
    intro l h
    rw [List.eq_nil_of_length_eq_zero (Nat.le_zero.mp h)]
    rfl
  | succ f ih =>
    intro l h
    cases l with
    | nil => rfl
    | cons x xs =>
      rw [batchChunksAux_succ f (x :: xs) (by simp)]
      have hlen : ((x :: xs).drop 10).length ≤ f := by
        rw [List.length_drop]
        simp only [List.length_cons] at h ⊢
        omega
      rw [List.flatten_cons, ih ((x :: xs).drop 10) hlen]
      exact List.take_append_drop 10 (x :: xs)

/-- Every batch is non-empty and no larger than the batch size. -/
lemma batchChunksAux_sizes :
    ∀ (fuel : Nat) (l : List α), l.length ≤ fuel →
      ∀ b ∈ batchChunksAux fuel l, b ≠ [] ∧ b.length ≤ 10 := by
  intro fuel
  induction fuel with
  | zero =>
    intro l h b hb
    rw [List.eq_nil_of_length_eq_zero (Nat.le_zero.mp h)] at hb
    cases hb
  | succ f ih =>
    intro l h b hb
    cases l with
    | nil => cases hb
    | cons x xs =>
      rw [batchChunksAux_succ f (x :: xs) (by simp)] at hb
      rcases List.mem_cons.mp hb with hb | hb
      · subst hb
        constructor
        · simp [List.take_succ_cons]
        · simp [List.length_take]
      · refine ih ((x :: xs).drop 10) ?_ b hb
        rw [List.length_drop]
        simp only [List.length_cons] at h ⊢
        omega

/-- `batchSync` equals the flat fold of `results.set` over the input. -/
lemma batchSync_eq_foldl (outcome : α → ArduinoSyncStatus) (getId : α → String)
    (l : List α) :
    batchSync outcome getId l =
      l.foldl (fun r q => setOutcome r (getId q) (outcome q)) [] := by
  unfold batchSync
  rw [← List.foldl_flatten]
  unfold batchChunks
  rw [batchChunksAux_flatten l.length l (Nat.le_refl _)]

/-- Setting a different key does not change a lookup. -/
lemma getOutcome_setOutcome_ne :
    ∀ (res : List (String × ArduinoSyncStatus)) (k0 : String) (v0 : ArduinoSyncStatus)
      (k : String), k0 ≠ k → getOutcome (setOutcome res k0 v0) k = getOutcome res k := by
  intro res
  induction res with
  | nil =>
    intro k0 v0 k hne
    simp [setOutcome, getOutcome, hne]
  | cons kv rest ih =>
    intro k0 v0 k hne
    unfold setOutcome
    by_cases h0 : kv.1 = k0
    · rw [if_pos h0]
      unfold getOutcome
      have : ¬ kv.1 = k := by rw [h0]; exact hne
      simp [this]
    · rw [if_neg h0]
      unfold getOutcome
      by_cases hk : kv.1 = k
      · simp [hk]
      · simp [hk, ih k0 v0 k hne]

/-- Setting a fresh key appends the pair. -/
lemma setOutcome_fresh :
    ∀ (res : List (String × ArduinoSyncStatus)) (k : String) (v : ArduinoSyncStatus),
      getOutcome res k = none → setOutcome res k v = res ++ [(k, v)] := by
  intro res
  induction res with
  | nil => intro k v _; rfl
  | cons kv rest ih =>
    intro k v h
    unfold getOutcome at h
    by_cases hk : kv.1 = k
    · rw [if_pos hk] at h
      cases h
    · rw [if_neg hk] at h
      unfold setOutcome
      rw [if_neg hk, ih k v h]
      rfl

/-- Lookup distributes over append. -/
lemma getOutcome_append :
    ∀ (l1 l2 : List (String × ArduinoSyncStatus)) (k : String),
      getOutcome (l1 ++ l2) k =
        match getOutcome l1 k with
        | some v => some v
        | none => getOutcome l2 k := by
  intro l1
  induction l1 with
  | nil => intro l2 k; rfl
  | cons kv rest ih =>
    intro l2 k
    have hc : ∀ (tail : List (String × ArduinoSyncStatus)),
        getOutcome (kv :: tail) k = if kv.1 = k then some kv.2 else getOutcome tail k := by
      intro tail
      rfl
    rw [List.cons_append, hc (rest ++ l2), hc rest]
    by_cases hk : kv.1 = k
    · simp [hk]
    · simp [hk, ih l2 k]

/-- A recorded outcome survives later sets under distinct keys. -/
lemma foldl_setOutcome_preserves (outcome : α → ArduinoSyncStatus) (getId : α → String) :
    ∀ (l : List α) (res : List (String × ArduinoSyncStatus)) (k : String)
      (v : ArduinoSyncStatus),
      getOutcome res k = some v → (∀ q ∈ l, getId q ≠ k) →
      getOutcome (l.foldl (fun r q => setOutcome r (getId q) (outcome q)) res) k = some v := by
  intro l
  induction l with
  | nil => intro res k v h _; exact h
  | cons q rest ih =>
    intro res k v h hne
    rw [List.foldl_cons]
    refine ih _ k v ?_ (fun q2 hq2 => hne q2 (List.mem_cons_of_mem _ hq2))
    rw [getOutcome_setOutcome_ne res (getId q) (outcome q) k (hne q (List.mem_cons_self _ _))]
    exact h

/-- Distinct ids give one recorded outcome per record. -/
lemma foldl_setOutcome_spec (outcome : α → ArduinoSyncStatus) (getId : α → String) :
    ∀ (l : List α) (res : List (String × ArduinoSyncStatus)),
      (l.map getId).Nodup →
      (∀ q ∈ l, getOutcome res (getId q) = none) →
      (l.foldl (fun r q => setOutcome r (getId q) (outcome q)) res).length
        = res.length + l.length ∧
      (∀ q ∈ l, getOutcome
        (l.foldl (fun r q => setOutcome r (getId q) (outcome q)) res)
        (getId q) = some (outcome q)) := by
  intro l
  induction l with
  | nil => intro res _ _; exact ⟨by simp, by simp⟩
  | cons q rest ih =>
    intro res hnd hfresh
    have hnd' : getId q ∉ rest.map getId ∧ (rest.map getId).Nodup := by
      rw [List.map_cons] at hnd
      exact List.nodup_cons.mp hnd
    have hq : getOutcome res (getId q) = none := hfresh q (List.mem_cons_self _ _)
    have hset : setOutcome res (getId q) (outcome q) = res ++ [(getId q, outcome q)] :=
      setOutcome_fresh res (getId q) (outcome q) hq
    have hfresh' : ∀ q2 ∈ rest,
        getOutcome (setOutcome res (getId q) (outcome q)) (getId q2) = none := by
      intro q2 hq2
      rw [hset, getOutcome_append res [(getId q, outcome q)] (getId q2),
        hfresh q2 (List.mem_cons_of_mem _ hq2)]
      have hne : ¬ getId q = getId q2 := by
        intro he
        exact hnd'.1 (he ▸ List.mem_map_of_mem getId hq2)
      simp [getOutcome, hne]
    obtain ⟨ihlen, ihget⟩ := ih (setOutcome res (getId q) (outcome q)) hnd'.2 hfresh'
    constructor
    · rw [List.foldl_cons, ihlen, hset]
      simp
      omega
    · intro q2 hq2
      rcases List.mem_cons.mp hq2 with h2 | h2
      · subst h2
        rw [List.foldl_cons]
        refine foldl_setOutcome_preserves outcome getId rest _ _ _ ?_ ?_
        · rw [hset, getOutcome_append res [(getId q2, outcome q2)] (getId q2), hq]
          simp [getOutcome]
        · intro q3 hq3 he
          exact hnd'.1 (he ▸ List.mem_map_of_mem getId hq3)
      · rw [List.foldl_cons]
        exact ihget q2 h2

/-- Chunk sizes of a 25-element input. -/
lemma batchChunks_len25 (l : List α) (h : l.length = 25) :
    (batchChunks l).map List.length = [10, 10, 5] := by
  have h1 : l ≠ [] := by intro e; rw [e] at h; cases h
  have hd1 : (l.drop 10).length = 15 := by simp [List.length_drop, h]
  have h2 : l.drop 10 ≠ [] := by
    intro e
    rw [e] at hd1
    cases hd1
  have hd2 : ((l.drop 10).drop 10).length = 5 := by
    simp only [List.length_drop]
    omega
  have h3 : (l.drop 10).drop 10 ≠ [] := by
    intro e
    rw [e] at hd2
    cases hd2
  have hd3 : (((l.drop 10).drop 10).drop 10).length = 0 := by
    simp only [List.length_drop]
    omega
  have h4 : ((l.drop 10).drop 10).drop 10 = [] := List.eq_nil_of_length_eq_zero hd3
  unfold batchChunks
  rw [h, batchChunksAux_succ 24 l h1, batchChunksAux_succ 23 _ h2,
    batchChunksAux_succ 22 _ h3, h4,
    show batchChunksAux 22 ([] : List α) = [] from rfl]
  simp [List.length_take, h, hd1, hd2]

/-- Delay count of a 25-element input. -/
lemma numDelays_len25 (l : List α) (h : l.length = 25) : numDelays l = 2 := by
  have h1 : l ≠ [] := by intro e; rw [e] at h; cases h
  have hd1 : (l.drop 10).length = 15 := by simp [List.length_drop, h]
  have h2 : l.drop 10 ≠ [] := by
    intro e
    rw [e] at hd1
    cases hd1
  have hd2 : ((l.drop 10).drop 10).length = 5 := by
    simp only [List.length_drop]
    omega
  have h3 : (l.drop 10).drop 10 ≠ [] := by
    intro e
    rw [e] at hd2
    cases hd2
  have hd3 : (((l.drop 10).drop 10).drop 10).length = 0 := by
    simp only [List.length_drop]
    omega
  have h4 : ((l.drop 10).drop 10).drop 10 = [] := List.eq_nil_of_length_eq_zero hd3
  unfold numDelays
  rw [h, numDelaysAux_succ 24 l h1, numDelaysAux_succ 23 _ h2,
    numDelaysAux_succ 22 _ h3, h4,
    show numDelaysAux 22 ([] : List α) = 0 from rfl]
  rw [h, hd1, hd2]
  norm_num

/-- C8: `batchSync` partitions the input into consecutive batches of
size at most 10 that flatten back to the input, records one outcome per
record in the result mapping keyed by record id (no record's failure
removes a sibling's entry — the outcome of each record is an independent
value of the mapping), and a 25-record input gives batches of sizes
10, 10, 5 with exactly 2 inter-batch delays and a result mapping of
size 25. -/
theorem batchSync_correct (outcome : α → ArduinoSyncStatus) (getId : α → String)
    (l : List α) (hnd : (l.map getId).Nodup) :
    (batchChunks l).flatten = l ∧
    (∀ b ∈ batchChunks l, b ≠ [] ∧ b.length ≤ 10) ∧
    (batchSync outcome getId l).length = l.length ∧
    (∀ q ∈ l, getOutcome (batchSync outcome getId l) (getId q) = some (outcome q)) ∧
    (l.length = 25 → (batchChunks l).map List.length = [10, 10, 5] ∧ numDelays l = 2) := by
  have hspec := foldl_setOutcome_spec outcome getId l [] hnd (by intro q _; rfl)
  refine ⟨batchChunksAux_flatten l.length l (Nat.le_refl _),
    batchChunksAux_sizes l.length l (Nat.le_refl _), ?_, ?_, ?_⟩
  · rw [batchSync_eq_foldl, hspec.1]
    simp
  · intro q hq
    rw [batchSync_eq_foldl]
    exact hspec.2 q hq
  · intro h25
    exact ⟨batchChunks_len25 l h25, numDelays_len25 l h25⟩

/-- C8 witness: 25 distinct records. -/
theorem batchSync_correct_witness :
    ((List.range 25).map Nat.repr).Nodup ∧
    (batchChunks (List.range 25)).map List.length = [10, 10, 5] ∧
    numDelays (List.range 25) = 2 ∧
    (batchSync (fun _ => ArduinoSyncStatus.synced) Nat.repr (List.range 25)).length = 25 := by
  have hnd : ((List.range 25).map Nat.repr).Nodup := by decide
  have h := batchSync_correct (fun _ => ArduinoSyncStatus.synced) Nat.repr (List.range 25) hnd
  refine ⟨hnd, (h.2.2.2.2 (by decide)).1, (h.2.2.2.2 (by decide)).2, ?_⟩
  rw [h.2.2.1]
  rfl

/-- C3 witness: a one-layer payload exercises the layered branch of the
amended dimensionality theorem. -/
theorem dimensions_amended_witness :
    ∃ v ls, jsonParse "\x7b\"layers\":[\x7b\x7d]\x7d" = some v ∧
      getField v "layers" = some (.jarr ls) ∧
      (parseQRCode defaultEnv "\x7b\"layers\":[\x7b\x7d]\x7d").dimensions = ls.length :=
  (dimensions_amended defaultEnv "\x7b\"layers\":[\x7b\x7d]\x7d").1 rfl

/-- C7 witness: a truthy `error` value is marked corrupted. -/
theorem validateData_corrupted_iff_witness :
    validateData (.jobj [("error", .jstr "boom")]) QRDataType.url = .corrupted :=
  (validateData_corrupted_iff (.jobj [("error", .jstr "boom")]) QRDataType.url).mpr
    (by decide)

/-- C10 witness: the empty-string record under the default oracles. -/
theorem parseQRCode_empty_witness :
    (parseQRCode defaultEnv "").data_type = .text ∧
    (parseQRCode defaultEnv "").parsed_data = .jobj [("text", .jstr "")] ∧
    getField (parseQRCode defaultEnv "").parsed_data "error" = none ∧
    (parseQRCode defaultEnv "").dimensions = 1 ∧
    (parseQRCode defaultEnv "").validation_status = .valid :=
  parseQRCode_empty defaultEnv

end QRM
